import Mathlib

/-!
# Verification of the ComfyUI-Install workflow validators

Shallow embedding of the model-validation scripts of the ComfyUI-Install
repository: the workflow parsers, model-reference extractors, filesystem
resolvers and report aggregators of `proper_video_validator.py`,
`simple_video_validator.py`, `worktrees/ltx-workflows/ltx_workflow_validator.py`
and `video_workflow_orchestrator.py`.

JSON documents are modelled by an inductive `Json` type (numbers as `Int`;
none of the verified properties depends on fractional numeric values).
Python dictionaries are modelled as insertion-ordered association lists with
replace-on-rebind semantics, matching CPython dict behaviour.  Fallible
Python operations (subscripts, `in` tests on non-containers, iteration,
`.items()`), whose exceptions the scripts catch with try/except, are
modelled in the `Except` monad.
-/

namespace ComfyUIInstall

/-- A JSON value as produced by `json.load`.  Numbers are modelled as
integers; the claims under verification only inspect string payloads. -/
inductive Json where
  | null
  | bool (b : Bool)
  | num (n : Int)
  | str (s : String)
  | arr (elems : List Json)
  | obj (fields : List (String × Json))
deriving Repr, BEq

/-- Whether the first character list is a leading segment of the
second. -/
def charsStartWith : List Char → List Char → Bool
  | [], _ => true
  | _ :: _, [] => false
  | a :: xs, b :: ys => a == b && charsStartWith xs ys

/-- Whether the needle occurs as a contiguous segment of the hay
(structurally recursive, so concrete instances evaluate in the
kernel). -/
def charsContain (needle : List Char) : List Char → Bool
  | [] => charsStartWith needle []
  | b :: ys => charsStartWith needle (b :: ys) || charsContain needle ys

/-- Python substring containment `needle in hay` for strings; the empty
needle is contained in every string. -/
def pyIn (needle hay : String) : Bool :=
  charsContain needle.data hay.data

/-- Python `.lower()` on a string. -/
def pyLower (s : String) : String :=
  String.mk (s.data.map Char.toLower)

/-- Python `.endswith(post)`. -/
def pyEndsWith (s post : String) : Bool :=
  charsStartWith post.data.reverse s.data.reverse

/-- Python `.split(sep)` for a one-character separator (the scripts only
split on `:` and on the newline). -/
def pySplitChar (sep : Char) (s : String) : List String :=
  (s.data.splitOn sep).map String.mk

/-- Python `.strip()`: drop leading and trailing whitespace. -/
def pyStrip (s : String) : String :=
  String.mk
    (((s.data.dropWhile Char.isWhitespace).reverse.dropWhile
      Char.isWhitespace).reverse)

/-- The value of a list of decimal digit characters. -/
def digitsToNat (cs : List Char) : Nat :=
  cs.foldl (fun a c => a * 10 + (c.toNat - 48)) 0

/-- Python truthiness of a JSON value: empty containers, empty strings,
zero, `False` and `None` are falsy. -/
def Json.truthy : Json → Bool
  | .null => false
  | .bool b => b
  | .num n => n != 0
  | .str s => !s.data.isEmpty
  | .arr elems => !elems.isEmpty
  | .obj fields => !fields.isEmpty

/-- Whether a JSON value is an object (a Python dict). -/
def Json.isObj : Json → Bool
  | .obj _ => true
  | _ => false

/-- First binding of key `k` in an association list (Python dicts keep one
binding per key, so with the insert discipline below this is the unique
binding). -/
def assocFind (fields : List (String × Json)) (k : String) : Option Json :=
  match fields.find? (fun kv => kv.1 == k) with
  | some kv => some kv.2
  | none => none

/-- Python dict key test for an object value. -/
def objHasKey (fields : List (String × Json)) (k : String) : Bool :=
  fields.any (fun kv => kv.1 == k)

/-- Python dict assignment `d[k] = v`: rebinding an existing key keeps its
position, a new key is appended. -/
def dictInsert (fields : List (String × Json)) (k : String) (v : Json) :
    List (String × Json) :=
  if objHasKey fields k then
    fields.map (fun kv => if kv.1 == k then (k, v) else kv)
  else
    fields ++ [(k, v)]

/-- Python `d.get(k, default)` on a JSON value known to be a dict;
on a non-dict it raises `AttributeError`. -/
def pyGet (v : Json) (k : String) (dflt : Json) : Except String Json :=
  match v with
  | .obj fields => .ok ((assocFind fields k).getD dflt)
  | _ => .error "AttributeError: object has no attribute get"

/-- Python membership test `k in data` for a string key: a key test on
dicts, an element test on lists, a substring test on strings, and a
`TypeError` on scalars. -/
def pyContains (data : Json) (k : String) : Except String Bool :=
  match data with
  | .obj fields => .ok (objHasKey fields k)
  | .arr elems =>
    .ok (elems.any (fun x =>
      match x with
      | .str s => s == k
      | _ => false))
  | .str s => .ok (pyIn k s)
  | _ => .error "TypeError: argument is not iterable"

/-- Python subscript `data[k]` with a string key: defined on dicts,
a `TypeError` on everything else. -/
def pySubscript (data : Json) (k : String) : Except String Json :=
  match data with
  | .obj fields =>
    match assocFind fields k with
    | some v => .ok v
    | none => .error "KeyError"
  | _ => .error "TypeError: indices must be integers"

/-- Python iteration over a JSON value: lists yield their elements, dicts
their keys, strings their characters; scalars raise `TypeError`. -/
def pyIter (v : Json) : Except String (List Json) :=
  match v with
  | .arr elems => .ok elems
  | .obj fields => .ok (fields.map (fun kv => Json.str kv.1))
  | .str s => .ok (s.data.map (fun c => Json.str (String.mk [c])))
  | _ => .error "TypeError: object is not iterable"

/-- Python `.items()`: defined on dicts only. -/
def pyItems (v : Json) : Except String (List (String × Json)) :=
  match v with
  | .obj fields => .ok fields
  | _ => .error "AttributeError: object has no attribute items"

/-- Python `str()` of a JSON value.  Node ids are numbers or strings in
practice; the rendering of composite values is abstracted. -/
def pyStr : Json → String
  | .null => "None"
  | .bool true => "True"
  | .bool false => "False"
  | .num n => toString n
  | .str s => s
  | .arr _ => "<list>"
  | .obj _ => "<dict>"

/-- A model filesystem: which paths exist, which paths are regular files,
and what a recursive `rglob` search below a directory returns for a given
filename, in traversal order. -/
structure FileSystem where
  pathExists : String → Bool
  isFile : String → Bool
  rglob : String → String → List String

/-- Path join, `Path / component` in the scripts. -/
def pjoin (a b : String) : String := a ++ "/" ++ b

namespace ProperVideoValidator

/-- Result of `ProperVideoValidator.parse_workflow`: the `nodes` dict, its
size and a format marker, mirroring the returned Python dict. -/
structure ParsedWorkflow where
  nodes : List (String × Json)
  total_nodes : Nat
  format : String
deriving Repr

/-- The loop body shared by the standard-format and fallback branches of
`parse_workflow`: store a dict node that has an `id` under `str(id)`,
skip everything else. -/
def insert_node_by_id (acc : List (String × Json)) (node : Json) :
    List (String × Json) :=
  match node with
  | .obj fields =>
    if objHasKey fields "id" then
      dictInsert acc (pyStr ((assocFind fields "id").getD .null)) node
    else acc
  | _ => acc

/-- The loop body of the API-format branch of `parse_workflow`: store
every dict node under its enumeration index. -/
def insert_node_by_index (acc : List (String × Json)) (p : Nat × Json) :
    List (String × Json) :=
  match p.2 with
  | .obj _ => dictInsert acc (toString p.1) p.2
  | _ => acc

/-- Body of `parse_workflow` after a successful `json.load` (the code
inside the try block, `proper_video_validator.py` lines 29-54).  Exceptions
raised by the body (for example `'nodes' in data` on a scalar, or
subscripting a list with a string) surface as `.error` and are caught by
the enclosing handler in `parse_workflow`. -/
def parse_workflow_body (data : Json) : Except String ParsedWorkflow := do
  let hasNodes ← pyContains data "nodes"
  let nodes ←
    if hasNodes then do
      let nv ← pySubscript data "nodes"
      let items ← pyIter nv
      pure (items.foldl insert_node_by_id [])
    else
      match data with
      | .arr elems =>
        pure ((elems.enum).foldl insert_node_by_index [])
      | _ => do
        let items ← pyItems data
        pure (items.foldl
          (fun acc kv =>
            match kv.2 with
            | .arr (headNode :: restNodes) =>
              match headNode with
              | .obj headFields =>
                if objHasKey headFields "id" then
                  (headNode :: restNodes).foldl insert_node_by_id acc
                else acc
              | _ => acc
            | _ => acc) [])
  pure { nodes := nodes
         total_nodes := nodes.length
         format := if hasNodes then "comfyui_standard" else "api_format" }

/-- `ProperVideoValidator.parse_workflow`: the input models the outcome of
reading and JSON-decoding the workflow file; any failure there, or any
exception raised by the normalization body, is caught by the handler and
mapped to the sentinel empty result. -/
def parse_workflow (input : Except String Json) : ParsedWorkflow :=
  match input.bind parse_workflow_body with
  | .ok r => r
  | .error _ => { nodes := [], total_nodes := 0, format := "error" }

/-- The recognized model file extensions of
`ProperVideoValidator.is_model_filename`. -/
def model_extensions : List String :=
  [".safetensors", ".ckpt", ".pth", ".pt", ".bin", ".onnx"]

/-- `ProperVideoValidator.is_model_filename`: a case-insensitive
extension test. -/
def is_model_filename (filename : String) : Bool :=
  model_extensions.any (fun ext => pyEndsWith (pyLower filename) ext)

/-- `ProperVideoValidator.determine_model_type`: first matching substring
test over the lowercased node type and filename. -/
def determine_model_type (node_type filename : String) : String :=
  let nt := pyLower node_type
  let fn := pyLower filename
  if pyIn "ltx" nt || pyIn "ltx" fn then "ltx_video"
  else if pyIn "wan2" fn || pyIn "wan" nt then "wan2_video"
  else if pyIn "checkpoint" nt then "checkpoint"
  else if pyIn "lora" nt || pyIn "lora" fn then "lora"
  else if pyIn "vae" nt then "vae"
  else if pyIn "clip" nt then "clip"
  else if pyIn "controlnet" nt then "controlnet"
  else if pyIn "upscale" nt || pyIn "esrgan" fn then "upscale"
  else "unknown"

/-- The folder map of `ProperVideoValidator.guess_model_folder`. -/
def folder_map : List (String × String) :=
  [("ltx_video", "checkpoints"),
   ("wan2_video", "checkpoints"),
   ("checkpoint", "checkpoints"),
   ("lora", "loras"),
   ("vae", "vae"),
   ("clip", "clip"),
   ("controlnet", "controlnet"),
   ("upscale", "upscale_models")]

/-- `ProperVideoValidator.guess_model_folder`: look the type up in the
folder map, defaulting to `checkpoints`. -/
def guess_model_folder (model_type : String) (_filename : String) : String :=
  match folder_map.find? (fun kv => kv.1 == model_type) with
  | some kv => kv.2
  | none => "checkpoints"

/-- One model reference produced by
`ProperVideoValidator.extract_model_references`; the Python dict carries
either an `index` (widgets source) or an `input_key` (inputs source). -/
structure ModelInfo where
  filename : String
  node_id : String
  node_type : String
  source : String
  index : Option Nat := none
  input_key : Option String := none
  model_type : String
  folder : String
deriving Repr

/-- Python `.lower()` on a value taken from a JSON document: defined on
strings, an `AttributeError` otherwise. -/
def asStrForLower : Json → Except String String
  | .str s => .ok s
  | _ => .error "AttributeError: object has no attribute lower"

/-- One step of the widgets-values pass of `extract_model_references`
(`proper_video_validator.py` lines 74-88): keep an enumerated string
entry that looks like a model file.  The raw `type` value of the node is
only forced to a string when a candidate is found, because only then does
`determine_model_type` call `.lower()` on it. -/
def widget_step (node_id : String) (node_typeJ : Json)
    (acc : List ModelInfo) : Nat × Json → Except String (List ModelInfo)
  | (i, .str value) =>
    if is_model_filename value then do
      let node_type ← asStrForLower node_typeJ
      pure (acc ++
        [{ filename := value
           node_id := node_id
           node_type := node_type
           source := "widgets_values"
           index := some i
           model_type := determine_model_type node_type value
           folder := guess_model_folder
             (determine_model_type node_type value) value }])
    else pure acc
  | (_, _) => pure acc

/-- The widgets-values pass of `extract_model_references` for one node:
enumerate the iterable and keep the string entries that look like model
files. -/
def extract_from_widgets (node_id : String) (node_typeJ : Json)
    (widgets : List Json) : Except String (List ModelInfo) :=
  (widgets.enum).foldlM (widget_step node_id node_typeJ) []

/-- One step of the inputs pass of `extract_model_references`
(lines 96-109): keep a string-valued entry that looks like a model
file. -/
def input_field_step (node_id : String) (node_typeJ : Json)
    (acc : List ModelInfo) :
    String × Json → Except String (List ModelInfo)
  | (key, .str value) =>
    if is_model_filename value then do
      let node_type ← asStrForLower node_typeJ
      pure (acc ++
        [{ filename := value
           node_id := node_id
           node_type := node_type
           source := "inputs"
           input_key := some key
           model_type := determine_model_type node_type value
           folder := guess_model_folder
             (determine_model_type node_type value) value }])
    else pure acc
  | (_, _) => pure acc

/-- The inputs pass of `extract_model_references` for one input record:
keep the string-valued entries that look like model files. -/
def extract_from_input_record (node_id : String) (node_typeJ : Json)
    (fields : List (String × Json)) : Except String (List ModelInfo) :=
  fields.foldlM (input_field_step node_id node_typeJ) []

/-- The three facts true of every reference the proper extractor emits:
the filename passes the extension test, the type is the one determined
from the node type and filename, and the folder is the guess for that
type. -/
def good_ref (m : ModelInfo) : Prop :=
  is_model_filename m.filename = true ∧
    m.model_type = determine_model_type m.node_type m.filename ∧
    m.folder = guess_model_folder m.model_type m.filename

/-- Stated from the claim, for comparison with the widgets pass: the
reference an enumerated string widget entry should yield when it passes
the extension test. -/
def widget_ref? (node_id node_type : String) :
    Nat × Json → Option ModelInfo
  | (i, .str value) =>
    if is_model_filename value then
      some { filename := value
             node_id := node_id
             node_type := node_type
             source := "widgets_values"
             index := some i
             model_type := determine_model_type node_type value
             folder := guess_model_folder
               (determine_model_type node_type value) value }
    else none
  | (_, _) => none

/-- Stated from the claim: the references a node with a string node type
should contribute are exactly the enumerated string widget entries
passing the extension test. -/
def widget_refs (node_id node_type : String) (widgets : List Json) :
    List ModelInfo :=
  (widgets.enum).filterMap (widget_ref? node_id node_type)

/-- Stated from the claim, for comparison with the inputs pass: the
reference a string-valued entry of an input record should yield when it
passes the extension test. -/
def input_ref? (node_id node_type : String) :
    String × Json → Option ModelInfo
  | (key, .str value) =>
    if is_model_filename value then
      some { filename := value
             node_id := node_id
             node_type := node_type
             source := "inputs"
             input_key := some key
             model_type := determine_model_type node_type value
             folder := guess_model_folder
               (determine_model_type node_type value) value }
    else none
  | (_, _) => none

/-- Stated from the claim: the references one input record should
contribute are exactly its string-valued entries passing the extension
test. -/
def input_refs (node_id node_type : String)
    (fields : List (String × Json)) : List ModelInfo :=
  fields.filterMap (input_ref? node_id node_type)

/-- Stated from the claim: of an entry of the inputs list only a dict is
examined, contributing its qualifying string-valued entries. -/
def input_info_ref (node_id node_type : String) : Json → List ModelInfo
  | .obj f => input_refs node_id node_type f
  | _ => []

/-- Stated from the claim: the references the inputs pass of one node
should emit. -/
def inputs_refs (node_id node_type : String) (infos : List Json) :
    List ModelInfo :=
  infos.flatMap (input_info_ref node_id node_type)

/-- One step of the loop over `inputs` entries (lines 93-94): only dict
entries are examined. -/
def input_info_step (node_id : String) (node_typeJ : Json)
    (acc : List ModelInfo) : Json → Except String (List ModelInfo)
  | .obj infoFields => do
    let ms ← extract_from_input_record node_id node_typeJ infoFields
    pure (acc ++ ms)
  | _ => pure acc

/-- Processing of one node of `extract_model_references`: the
widgets-values pass followed by the inputs pass.  Iterating a truthy
non-iterable `widgets_values` or `inputs` raises `TypeError`, which this
function (like the source) does not catch. -/
def extract_from_node (node_id : String) :
    Json → Except String (List ModelInfo)
  | .obj fields => do
    let node_typeJ := (assocFind fields "type").getD (.str "")
    let widgets := (assocFind fields "widgets_values").getD (.arr [])
    let fromWidgets ←
      if widgets.truthy then do
        let ws ← pyIter widgets
        extract_from_widgets node_id node_typeJ ws
      else pure []
    let inputs := (assocFind fields "inputs").getD (.arr [])
    let fromInputs ←
      if inputs.truthy then do
        let infos ← pyIter inputs
        infos.foldlM (input_info_step node_id node_typeJ) []
      else pure []
    pure (fromWidgets ++ fromInputs)
  | _ => .ok []

/-- `ProperVideoValidator.extract_model_references` over the `nodes`
mapping of a parsed workflow. -/
def extract_model_references (nodes : List (String × Json)) :
    Except String (List ModelInfo) :=
  nodes.foldlM
    (fun acc kv => do
      let ms ← extract_from_node kv.1 kv.2
      pure (acc ++ ms))
    []

/-- The folder variations probed by
`ProperVideoValidator.check_model_exists`. -/
def folder_variations : List String :=
  ["checkpoints", "loras", "vae", "clip", "controlnet", "upscale_models",
   "unet", "models"]

/-- The per-root body of `check_model_exists`: direct probe in the
expected folder, then the folder variations, then (only while nothing at
all has been found) a recursive search under three folders
(`proper_video_validator.py` lines 162-204).  The accumulator is the
`found_paths` list shared across all roots. -/
def check_one_root (fs : FileSystem) (mi : ModelInfo)
    (found : List String) (root : String) : List String :=
  if !fs.pathExists root then found
  else
    let direct := pjoin (pjoin root mi.folder) mi.filename
    if fs.pathExists direct then found ++ [direct]
    else
      let afterVariations :=
        match folder_variations.find?
            (fun f => fs.pathExists (pjoin (pjoin root f) mi.filename)) with
        | some f => found ++ [pjoin (pjoin root f) mi.filename]
        | none => found
      if afterVariations.isEmpty then
        match ["checkpoints", "loras", "vae"].findSome?
            (fun f =>
              let sp := pjoin root f
              if fs.pathExists sp then
                (fs.rglob sp mi.filename).find? fs.isFile
              else none) with
        | some p => afterVariations ++ [p]
        | none => afterVariations
      else afterVariations

/-- `ProperVideoValidator.check_model_exists`: probe every configured
model root, returning the existence flag together with the list of found
paths. -/
def check_model_exists (fs : FileSystem) (model_paths : List String)
    (mi : ModelInfo) : Bool × List String :=
  let found := model_paths.foldl (check_one_root fs mi) []
  (found.length > 0, found)

/-- One entry of the `models_detail` list of a workflow result.  The
Python dict stores the flag under the key `exists`. -/
structure ModelDetail where
  info : ModelInfo
  existsFlag : Bool
  found_paths : List String
deriving Repr

/-- Result dict of `ProperVideoValidator.validate_video_workflow`.  The
`models_detail` key is absent from the error records appended by
`validate_all_workflows`; those records are modelled with an empty list. -/
structure WorkflowResult where
  workflow_file : String
  total_nodes : Nat
  total_models : Nat
  found_models : Nat
  missing_models : Nat
  models_detail : List ModelDetail
  error : Option String := none
deriving Repr

/-- The per-model body of the checking loop of
`validate_video_workflow` (`proper_video_validator.py` lines 239-253):
append the detail entry and bump the found or missing counter. -/
def model_check_step (fs : FileSystem) (model_paths : List String)
    (r : WorkflowResult) (mi : ModelInfo) : WorkflowResult :=
  let probe := check_model_exists fs model_paths mi
  { r with
    models_detail := r.models_detail ++ [⟨mi, probe.1, probe.2⟩]
    found_models := r.found_models + (if probe.1 then 1 else 0)
    missing_models := r.missing_models + (if probe.1 then 0 else 1) }

/-- `ProperVideoValidator.validate_video_workflow`: parse, extract, then
check each reference, counting found and missing models.  A `TypeError`
escaping the extractor propagates (it is caught by the caller). -/
def validate_video_workflow (fs : FileSystem) (model_paths : List String)
    (workflow_file : String) (input : Except String Json) :
    Except String WorkflowResult :=
  let wd := parse_workflow input
  if wd.total_nodes == 0 then
    .ok { workflow_file := workflow_file
          total_nodes := 0
          total_models := 0
          found_models := 0
          missing_models := 0
          models_detail := []
          error := some "No valid nodes found in workflow" }
  else do
    let models ← extract_model_references wd.nodes
    pure (models.foldl (model_check_step fs model_paths)
      { workflow_file := workflow_file
        total_nodes := wd.total_nodes
        total_models := models.length
        found_models := 0
        missing_models := 0
        models_detail := [] })

/-- The per-workflow loop of `validate_all_workflows`: a failed
validation is caught and replaced by an error record with zero counts. -/
def process_workflow (fs : FileSystem) (model_paths : List String)
    (wf : String × Except String Json) : WorkflowResult :=
  match validate_video_workflow fs model_paths wf.1 wf.2 with
  | .ok r => r
  | .error e =>
    { workflow_file := wf.1
      total_nodes := 0
      total_models := 0
      found_models := 0
      missing_models := 0
      models_detail := []
      error := some e }

/-- The summary dict built by `validate_all_workflows`
(`proper_video_validator.py` lines 338-354).  The success rate is the
exact rational value of the Python float expression. -/
structure Summary where
  total_workflows : Nat
  total_nodes : Nat
  total_models : Nat
  found_models : Nat
  missing_models : Nat
  success_rate : ℚ
deriving Repr

/-- The summary aggregation of `validate_all_workflows`. -/
def summarize (all_results : List WorkflowResult) : Summary :=
  { total_workflows := all_results.length
    total_nodes := (all_results.map (fun r => r.total_nodes)).sum
    total_models := (all_results.map (fun r => r.total_models)).sum
    found_models := (all_results.map (fun r => r.found_models)).sum
    missing_models := (all_results.map (fun r => r.missing_models)).sum
    success_rate :=
      if 0 < (all_results.map (fun r => r.total_models)).sum then
        ((all_results.map (fun r => r.found_models)).sum : ℚ)
          / ((all_results.map (fun r => r.total_models)).sum : ℚ) * 100
      else 0 }

/-- `ProperVideoValidator.validate_all_workflows`: an empty discovery
list returns the empty dict (`none`); otherwise every workflow is
validated and the results are aggregated. -/
def validate_all_workflows (fs : FileSystem) (model_paths : List String)
    (workflows : List (String × Except String Json)) : Option Summary :=
  if workflows.isEmpty then none
  else some (summarize (workflows.map (process_workflow fs model_paths)))

/-- The exit code computed by `main` (`proper_video_validator.py` lines
389-407): `results.get(missing_models, 0)` of the summary dict, zero for
the empty dict.  The out-of-scope result-file write is abstracted. -/
def main_exit_code (fs : FileSystem) (model_paths : List String)
    (workflows : List (String × Except String Json)) : Nat :=
  let missing :=
    match validate_all_workflows fs model_paths workflows with
    | none => 0
    | some s => s.missing_models
  if missing == 0 then 0 else 1

end ProperVideoValidator

namespace SimpleVideoValidator

/-- Result dict of `SimpleVideoValidator.parse_workflow`: the `nodes`
component is whatever Python value the function bound to `nodes` (for the
object-with-nodes shape this is `data[nodes]` unchanged). -/
structure SimpleParsed where
  nodes : Json
  format : String
  raw_data : Json
deriving Repr

/-- Body of `SimpleVideoValidator.parse_workflow` after a successful
`json.load` (`simple_video_validator.py` lines 29-50). -/
def parse_workflow_body (data : Json) : Except String SimpleParsed := do
  let nodes ←
    match data with
    | .arr elems =>
      pure (Json.obj ((elems.enum).map (fun p => (toString p.1, p.2))))
    | .obj fields =>
      if objHasKey fields "nodes" then
        pure ((assocFind fields "nodes").getD .null)
      else if objHasKey fields "extra" && objHasKey fields "ds" then do
        let extra ← pyGet data "extra" (.obj [])
        let ds ← pyGet extra "ds" (.obj [])
        let nodesVal ← pyGet ds "nodes" (.arr [])
        let items ← pyIter nodesVal
        pure (Json.obj ((items.enum).map (fun p => (toString p.1, p.2))))
      else
        pure ((assocFind fields "nodes").getD (.obj []))
    | _ => pure (Json.obj [])
  pure { nodes := nodes
         format := match data with
                   | .arr _ => "list"
                   | _ => "dict"
         raw_data := data }

/-- `SimpleVideoValidator.parse_workflow`: read and decode, normalize,
and map any exception to the sentinel error result. -/
def parse_workflow (input : Except String Json) : SimpleParsed :=
  match input.bind parse_workflow_body with
  | .ok r => r
  | .error _ => { nodes := .obj [], format := "error", raw_data := .obj [] }

/-- The extensions accepted by the string-input branch of
`SimpleVideoValidator.extract_model_references` (line 97); note the
absence of `.onnx`. -/
def simple_str_extensions : List String :=
  [".safetensors", ".ckpt", ".pth", ".pt", ".bin"]

/-- The string-input test of `extract_model_references` line 95-97:
`isinstance(input_value, str)` callers guarantee, then a dot test and the
extension test. -/
def is_simple_model_str (value : String) : Bool :=
  pyIn "." value &&
    simple_str_extensions.any (fun ext => pyEndsWith (pyLower value) ext)

/-- One model reference of `SimpleVideoValidator`; `folder` and
`filename` hold the raw JSON values found in the inputs (the list and
dict formats copy them without coercion). -/
structure SimpleModelInfo where
  folder : Json
  filename : Json
  node_id : String
  node_type : Json
  input_name : String
  model_type : String
deriving Repr

/-- Python `a or b`: `a` when truthy, otherwise `b`. -/
def pyOr (a b : Json) : Json := if a.truthy then a else b

/-- The candidate test of `extract_model_references` (lines 72-104):
list format `[folder, filename, ...]`, dict format with folder/directory
and filename/file/name keys, and the string-with-model-extension
format. -/
def simple_candidate (input_value : Json) : Option (Json × Json) :=
  match input_value with
  | .arr (a :: b :: _) =>
    match a, b with
    | .str fa, .str fb => some (.str fa, .str fb)
    | _, _ => none
  | .obj fields =>
    let jget := fun k => (assocFind fields k).getD .null
    let folder := pyOr (jget "folder") (jget "directory")
    let filename := pyOr (jget "filename") (pyOr (jget "file") (jget "name"))
    if folder.truthy && filename.truthy then some (folder, filename) else none
  | .str s =>
    if is_simple_model_str s then some (.str "unknown", .str s) else none
  | _ => none

/-- The categorization of `extract_model_references` (lines 107-122):
substring tests over the lowered folder and filename; `.lower()` on a
non-string raises. -/
def simple_categorize (folder filename : Json) : Except String String := do
  let fl ← ProperVideoValidator.asStrForLower folder
  let fn ← ProperVideoValidator.asStrForLower filename
  let folder_lower := pyLower fl
  let filename_lower := pyLower fn
  pure
    (if ["checkpoint", "checkpoints", "model"].any
        (fun x => pyIn x folder_lower) then "checkpoint"
     else if pyIn "lora" folder_lower || pyIn "lora" filename_lower then
       "lora"
     else if pyIn "vae" folder_lower || pyIn "vae" filename_lower then "vae"
     else if pyIn "controlnet" folder_lower ||
         pyIn "control" filename_lower then "controlnet"
     else if pyIn "upscale" folder_lower || pyIn "esrgan" folder_lower then
       "upscale"
     else "other")

/-- `SimpleVideoValidator.extract_model_references` over the `nodes`
component of a parsed workflow: iterating `.items()` of a non-dict
`nodes` value raises `AttributeError`, which the extractor does not
catch. -/
def extract_model_references (nodesJson : Json) :
    Except String (List SimpleModelInfo) := do
  let items ← pyItems nodesJson
  items.foldlM
    (fun acc kv =>
      match kv.2 with
      | .obj nodeFields => do
        let node_type := (assocFind nodeFields "type").getD (.str "")
        let node_inputs := (assocFind nodeFields "inputs").getD (.obj [])
        let inputItems ← pyItems node_inputs
        inputItems.foldlM
          (fun acc2 ikv =>
            match simple_candidate ikv.2 with
            | none => pure acc2
            | some fp => do
              let mt ← simple_categorize fp.1 fp.2
              pure (acc2 ++
                [{ folder := fp.1
                   filename := fp.2
                   node_id := kv.1
                   node_type := node_type
                   input_name := ikv.1
                   model_type := mt }]))
          acc
      | _ => pure acc)
    []

end SimpleVideoValidator

namespace LTXWorkflowAnalyzer

/-- The `ModelReference` dataclass of `ltx_workflow_validator.py`. -/
structure ModelReference where
  model_type : String
  model_name : String
  model_path : Option String := none
  node_id : Option String := none
  node_type : Option String := none
  strength : Option Json := none
  existsFlag : Bool := false
  full_path : Option String := none
deriving Repr

/-- `LTXWorkflowAnalyzer.parse_workflow`: return the decoded JSON, or the
empty dict after logging when reading or decoding fails. -/
def parse_workflow (input : Except String Json) : Json :=
  match input with
  | .ok data => data
  | .error _ => .obj []

/-- One field pattern of `_get_ltx_model_patterns`. -/
structure LTXPattern where
  field : String
  type : String
  strength_field : Option String := none
deriving Repr

/-- `LTXWorkflowAnalyzer._get_ltx_model_patterns`: LTX-specific loader,
LoRA and ControlNet patterns followed by the general video patterns. -/
def get_ltx_model_patterns (node_type : String) : List LTXPattern :=
  let ltx :=
    if pyIn "LTX" node_type || pyIn "ltx" node_type then
      (if pyIn "Loader" node_type || pyIn "loader" node_type then
        [⟨"model_name", "checkpoint", none⟩,
         ⟨"vae_name", "vae", none⟩,
         ⟨"clip_name", "clip", none⟩]
      else []) ++
      (if pyIn "LoRA" node_type || pyIn "lora" node_type then
        [⟨"lora_name", "lora", some "strength_model"⟩,
         ⟨"lora_name", "lora", some "strength_clip"⟩]
      else []) ++
      (if pyIn "Control" node_type || pyIn "control" node_type then
        [⟨"control_net_name", "controlnet", none⟩,
         ⟨"model_name", "controlnet", none⟩]
      else [])
    else []
  let video :=
    if node_type == "CheckpointLoaderSimple" then
      [⟨"ckpt_name", "checkpoint", none⟩]
    else if node_type == "VAELoader" then [⟨"vae_name", "vae", none⟩]
    else if node_type == "CLIPTextEncode" then [⟨"clip", "clip", none⟩]
    else if node_type == "LoraLoader" then
      [⟨"lora_name", "lora", some "strength_model"⟩,
       ⟨"lora_name", "lora", some "strength_clip"⟩]
    else if node_type == "ControlNetLoader" then
      [⟨"control_net_name", "controlnet", none⟩]
    else []
  ltx ++ video

/-- The per-pattern body of `extract_model_references` (lines 86-116):
test the field, normalize the value to a name, skip empty and
placeholder names, and attach the optional strength value. -/
def extract_for_pattern (node_id : String) (node_type : String)
    (inputs : Json) (pat : LTXPattern) :
    Except String (List ModelReference) := do
  let fieldPresent ← pyContains inputs pat.field
  if !fieldPresent then pure []
  else do
    let model_value ← pySubscript inputs pat.field
    let nameOpt :=
      match model_value with
      | .arr (v :: _) => some (pyStr v)
      | .arr [] => none
      | .str s => some s
      | _ => none
    match nameOpt with
    | none => pure []
    | some model_name =>
      if model_name == "" || model_name == "none" || model_name == "None"
      then pure []
      else do
        let strength ←
          match pat.strength_field with
          | none => pure none
          | some sf => do
            let present ← pyContains inputs sf
            if present then do
              let v ← pySubscript inputs sf
              pure (some v)
            else pure none
        pure [{ model_type := pat.type
                model_name := model_name
                node_id := some node_id
                node_type := some node_type
                strength := strength }]

/-- `LTXWorkflowAnalyzer.extract_model_references`: early return on a
falsy `nodes` value, otherwise walk each node with its LTX patterns.
`.get` on a non-dict workflow value and `.items()` on a non-dict `nodes`
value raise, as in the source. -/
def extract_model_references (workflow_data : Json) :
    Except String (List ModelReference) := do
  let nodesVal ← pyGet workflow_data "nodes" .null
  if !nodesVal.truthy then pure []
  else do
    let items ← pyItems nodesVal
    items.foldlM
      (fun acc kv =>
        match kv.2 with
        | .obj nodeFields => do
          let ct := (assocFind nodeFields "class_type").getD (.str "")
          let node_type ← ProperVideoValidator.asStrForLower ct
          let inputs := (assocFind nodeFields "inputs").getD (.obj [])
          (get_ltx_model_patterns node_type).foldlM
            (fun acc2 pat => do
              let refs ← extract_for_pattern kv.1 node_type inputs pat
              pure (acc2 ++ refs))
            acc
        | _ => pyGet kv.2 "class_type" (.str "") *> pure acc)
      []

/-- The supported extensions of the analyzer, written in literal order
(the source keeps them in a Python set, whose iteration order is
unspecified; no verified property depends on the order). -/
def supported_extensions : List String :=
  [".safetensors", ".ckpt", ".pth", ".pt", ".bin"]

/-- `Path.suffix` of pathlib on the final component of a path. -/
def pathSuffix (p : String) : String :=
  let base := (pySplitChar (Char.ofNat 47) p).getLastD p
  match pySplitChar (Char.ofNat 46) base with
  | [] => ""
  | [_] => ""
  | first :: rest =>
    if first == "" && rest.length == 1 then ""
    else
      let ext := rest.getLastD ""
      if ext == "" then "" else "." ++ ext

/-- `LTXWorkflowAnalyzer.resolve_model_path`
(`ltx_workflow_validator.py` lines 164-224).  The local name `p` used by
every branch of the if/elif chain over the recognized model types is
unbound in this method: it occurs in the source only as the comprehension
variable of `__init__` (line 45), which does not leak into method scope in
Python 3.  Evaluating any of those branches therefore raises `NameError`
before a single path is probed.  Only an unrecognized model type reaches
the probing code, which searches the configured base paths. -/
def resolve_model_path (model_base_paths : List String) (fs : FileSystem)
    (ref : ModelReference) : Except String (Option String) :=
  if ref.model_type == "checkpoint" || ref.model_type == "lora" ||
     ref.model_type == "vae" || ref.model_type == "controlnet" ||
     ref.model_type == "clip" then
    .error "NameError: name p is not defined"
  else
    let search_paths := model_base_paths.flatMap
      (fun base =>
        [pjoin (pjoin base ref.model_type) ref.model_name,
         pjoin (pjoin base (ref.model_type ++ "s")) ref.model_name,
         pjoin base ref.model_name])
    match search_paths.find? fs.pathExists with
    | some sp => .ok (some sp)
    | none =>
      match search_paths.findSome?
          (fun sp =>
            if pathSuffix sp == "" then
              (supported_extensions.find?
                (fun ext => fs.pathExists (sp ++ ext))).map (sp ++ ·)
            else none) with
      | some sp => .ok (some sp)
      | none => .ok none

/-- The count fields of the `ValidationResult` dataclass that
`generate_report` aggregates. -/
structure LTXResultCounts where
  total_models : Nat
  found_models : Nat
  missing_models : Nat
deriving Repr

/-- The summary block of `LTXWorkflowAnalyzer.generate_report`
(lines 291-305).  `success_rate = none` is rendered as the
`- **Success Rate**: N/A` Markdown line; `some q` as the percentage. -/
structure LTXReportSummary where
  total_workflows : Nat
  total_models : Nat
  found_models : Nat
  missing_models : Nat
  success_rate : Option ℚ
deriving Repr

/-- The summary aggregation of `generate_report`. -/
def generate_report_summary (results : List LTXResultCounts) :
    LTXReportSummary :=
  { total_workflows := results.length
    total_models := (results.map (fun r => r.total_models)).sum
    found_models := (results.map (fun r => r.found_models)).sum
    missing_models := (results.map (fun r => r.missing_models)).sum
    success_rate :=
      if 0 < (results.map (fun r => r.total_models)).sum then
        some (((results.map (fun r => r.found_models)).sum : ℚ)
          / ((results.map (fun r => r.total_models)).sum : ℚ) * 100)
      else none }

end LTXWorkflowAnalyzer

namespace VideoWorkflowOrchestrator

/-- The `ValidationTask` dataclass of `video_workflow_orchestrator.py`. -/
structure ValidationTask where
  name : String
  worktree_path : String
  validator_script : String
  branch_name : String
  port : Nat
  priority : String
deriving Repr

/-- The `ValidationResult` dataclass of the orchestrator.  The
wall-clock `execution_time` float and the unused `detailed_metrics` field
are out of the embedding scope. -/
structure OrchValidationResult where
  task_name : String
  success : Bool
  total_workflows : Int
  total_models : Int
  found_models : Int
  missing_models : Int
  report_path : String
  error_message : Option String := none
deriving Repr

/-- The metrics dict built by
`VideoWorkflowOrchestrator._parse_validator_output`. -/
structure OrchMetrics where
  total_workflows : Int
  total_models : Int
  found_models : Int
  missing_models : Int
  report_path : String
deriving Repr

/-- Python `int(s)` on a stripped string: an optional sign followed by
digits (digit-group underscores accepted by Python are not modelled;
no validator output contains them). -/
def pyInt (s : String) : Option Int :=
  match (pyStrip s).data with
  | [] => none
  | c :: cs =>
    if c == Char.ofNat 45 then
      if !cs.isEmpty && cs.all Char.isDigit then some (-(digitsToNat cs))
      else none
    else if c == Char.ofNat 43 then
      if !cs.isEmpty && cs.all Char.isDigit then some (digitsToNat cs)
      else none
    else if (c :: cs).all Char.isDigit then some (digitsToNat (c :: cs))
    else none

/-- `line.split(':')[-1]`: the text after the last colon. -/
def lastColonField (line : String) : String :=
  (pySplitChar (Char.ofNat 58) line).getLastD line

/-- One step of the metric-scraping loop
(`video_workflow_orchestrator.py` lines 262-282): the first matching
marker wins for the line; an unparsable tail leaves the metric
unchanged. -/
def scrape_step (m : OrchMetrics) (line : String) : OrchMetrics :=
  if pyIn "Workflows analyzed:" line then
    { m with total_workflows :=
        (pyInt (lastColonField line)).getD m.total_workflows }
  else if pyIn "Total models needed:" line then
    { m with total_models :=
        (pyInt (lastColonField line)).getD m.total_models }
  else if pyIn "Models found:" line then
    { m with found_models :=
        (pyInt (lastColonField line)).getD m.found_models }
  else if pyIn "Models missing:" line then
    { m with missing_models :=
        (pyInt (lastColonField line)).getD m.missing_models }
  else m

/-- Python `.split(chr(10))`: the stdout lines. -/
def splitLines (s : String) : List String :=
  pySplitChar (Char.ofNat 10) s

/-- The defaults dict returned when the summary header is not found
(lines 245-252). -/
def default_metrics (worktree_path : String) : OrchMetrics :=
  { total_workflows := 0
    total_models := 0
    found_models := 0
    missing_models := 0
    report_path := pjoin worktree_path "validation_report.md" }

/-- `VideoWorkflowOrchestrator._parse_validator_output`.  The summary
start is the index of the first line containing the header; the source
guards with `if not summary_start`, so an index of zero is treated like a
missing header.  `report_exists` models
`(worktree_path / "validation_report.md").exists()`, `glob_matches` the
`*validation_report.md` glob results. -/
def parse_validator_output (output worktree_path : String)
    (report_exists : Bool) (glob_matches : List String) : OrchMetrics :=
  let lines := splitLines output
  match lines.findIdx? (fun l => pyIn "WORKFLOW VALIDATION SUMMARY" l) with
  | none => default_metrics worktree_path
  | some 0 => default_metrics worktree_path
  | some i =>
    let m := (lines.drop i).foldl scrape_step
      { total_workflows := 0
        total_models := 0
        found_models := 0
        missing_models := 0
        report_path := "" }
    let rp :=
      if report_exists then pjoin worktree_path "validation_report.md"
      else
        match glob_matches with
        | g :: _ => g
        | [] => pjoin worktree_path "validation_report.md"
    { m with report_path := rp }

/-- The four count markers in the order of the elif chain of the
scraping loop. -/
def markers : List String :=
  ["Workflows analyzed:", "Total models needed:", "Models found:",
   "Models missing:"]

/-- The first marker, in elif order, that a line contains. -/
def marker_of (line : String) : Option String :=
  markers.find? (fun m => pyIn m line)

/-- Stated from the claim, for comparison with the scraping loop: the
count recovered for marker `m` from the lines at and after the summary
header is the integer parsed after the last colon of the last such line
whose first matching marker is `m`, and zero when no such line parses. -/
def scraped_count (tail : List String) (m : String) : Int :=
  (tail.filterMap (fun l =>
    if marker_of l = some m then pyInt (lastColonField l) else none)
  ).getLastD 0

/-- The observable outcome of the subprocess attempt inside
`execute_validation_task`: the worktree or script existence checks, a
completed run with its exit status and captured streams, the 300-second
timeout, or any other exception. -/
inductive SubprocessOutcome where
  | missingWorktree
  | missingScript
  | completed (returncode : Int) (stdout : String) (stderr : String)
  | timedOut
  | otherError (msg : String)
deriving Repr

/-- The failure result shared by every except-branch of
`execute_validation_task`: zero counts, empty report path and a
non-empty error message. -/
def fail_result (task : ValidationTask) (msg : String) :
    OrchValidationResult :=
  { task_name := task.name
    success := false
    total_workflows := 0
    total_models := 0
    found_models := 0
    missing_models := 0
    report_path := ""
    error_message := some msg }

/-- The shape shared by every failure result of
`execute_validation_task`: failure flag, all four counts zero, empty
report path, and an error message present. -/
def is_zeroed_failure (r : OrchValidationResult) : Prop :=
  r.success = false ∧ r.total_workflows = 0 ∧ r.total_models = 0 ∧
  r.found_models = 0 ∧ r.missing_models = 0 ∧ r.report_path = "" ∧
  r.error_message ≠ none

/-- `VideoWorkflowOrchestrator.execute_validation_task`
(`video_workflow_orchestrator.py` lines 149-231): every failure mode is
caught and converted into a failure `ValidationResult`; a zero exit
status yields a success result scraped from stdout. -/
def execute_validation_task (task : ValidationTask)
    (outcome : SubprocessOutcome) (report_exists : Bool)
    (glob_matches : List String) : OrchValidationResult :=
  match outcome with
  | .missingWorktree =>
    fail_result task
      ("Unexpected error: Worktree not found: " ++ task.worktree_path)
  | .missingScript =>
    fail_result task
      ("Unexpected error: Validator script not found: " ++
        pjoin task.worktree_path task.validator_script)
  | .timedOut => fail_result task "Validation timed out after 5 minutes"
  | .otherError msg => fail_result task ("Unexpected error: " ++ msg)
  | .completed rc out serr =>
    if rc != 0 then
      fail_result task
        ("Validation failed with exit code " ++ toString rc ++ ": " ++ serr)
    else
      let m := parse_validator_output out
        task.worktree_path report_exists glob_matches
      { task_name := task.name
        success := true
        total_workflows := m.total_workflows
        total_models := m.total_models
        found_models := m.found_models
        missing_models := m.missing_models
        report_path := m.report_path
        error_message := none }

end VideoWorkflowOrchestrator

/-! ## Helper lemmas

Decimal rendering of naturals is injective (needed to reason about the
`str(i)` keys of the index-keyed node mappings), and the association-list
operations modelling Python dicts behave like a finite map. -/

theorem toDigitsCore_append (b f n : Nat) (ds es : List Char) :
    Nat.toDigitsCore b f n (ds ++ es) = Nat.toDigitsCore b f n ds ++ es := by
  induction f generalizing n ds with
  | zero => rfl
  | succ f ih =>
    unfold Nat.toDigitsCore
    by_cases h : n / b = 0
    · simp [h]
    · simp only [h, if_false]
      rw [← List.cons_append, ih]

theorem toDigitsCore_fuel (b : Nat) (hb : 2 ≤ b) :
    ∀ n f ds, n < f →
      Nat.toDigitsCore b f n ds = Nat.toDigitsCore b (n+1) n ds := by
  intro n
  induction n using Nat.strong_induction_on with
  | _ n ih =>
    intro f ds hf
    match f, hf with
    | f + 1, hf =>
      unfold Nat.toDigitsCore
      by_cases h : n / b = 0
      · simp [h]
      · simp only [h, if_false]
        have hn0 : 0 < n := by
          rcases Nat.eq_zero_or_pos n with rfl | h2
          · simp [Nat.zero_div] at h
          · exact h2
        have hdiv : n / b < n := Nat.div_lt_self hn0 (by omega)
        rw [ih (n / b) hdiv f _ (by omega), ih (n / b) hdiv n _ (by omega)]

theorem toDigits_base (n : Nat) (h : n < 10) :
    Nat.toDigits 10 n = [Nat.digitChar n] := by
  unfold Nat.toDigits Nat.toDigitsCore
  have h0 : n / 10 = 0 := Nat.div_eq_of_lt h
  simp [h0, Nat.mod_eq_of_lt h]

theorem toDigits_step (n : Nat) (h : 10 ≤ n) :
    Nat.toDigits 10 n
      = Nat.toDigits 10 (n / 10) ++ [Nat.digitChar (n % 10)] := by
  unfold Nat.toDigits
  conv_lhs => unfold Nat.toDigitsCore
  have h0 : n / 10 ≠ 0 := by
    have := (Nat.one_le_div_iff (by omega : 0 < 10)).mpr h
    omega
  simp only [h0, if_false]
  rw [toDigitsCore_fuel 10 (by omega) (n / 10) n _ (by
    have := Nat.div_lt_self (by omega : 0 < n) (by omega : 1 < 10)
    omega)]
  rw [show [Nat.digitChar (n % 10)] = [] ++ [Nat.digitChar (n % 10)] from rfl,
    toDigitsCore_append]
  simp

theorem toDigits_ne_nil (n : Nat) : Nat.toDigits 10 n ≠ [] := by
  by_cases h : n < 10
  · simp [toDigits_base n h]
  · rw [toDigits_step n (by omega)]; simp

theorem digitChar_inj (a b : Nat) (ha : a < 10) (hb : b < 10)
    (h : Nat.digitChar a = Nat.digitChar b) : a = b := by
  interval_cases a <;> interval_cases b <;> revert h <;> decide

theorem toDigits_inj :
    ∀ m, ∀ n, Nat.toDigits 10 m = Nat.toDigits 10 n → m = n := by
  intro m
  induction m using Nat.strong_induction_on with
  | _ m ih =>
    intro n h
    by_cases hm : m < 10 <;> by_cases hn : n < 10
    · rw [toDigits_base m hm, toDigits_base n hn] at h
      injection h with h1 _
      exact digitChar_inj m n hm hn h1
    · rw [toDigits_base m hm, toDigits_step n (by omega)] at h
      have := congrArg List.length h
      simp at this
      have := toDigits_ne_nil (n / 10)
      cases h2 : Nat.toDigits 10 (n / 10) <;> simp_all
    · rw [toDigits_step m (by omega), toDigits_base n hn] at h
      have := congrArg List.length h
      have := toDigits_ne_nil (m / 10)
      cases h2 : Nat.toDigits 10 (m / 10) <;> simp_all
    · rw [toDigits_step m (by omega), toDigits_step n (by omega)] at h
      have hrev := congrArg List.reverse h
      simp only [List.reverse_append, List.reverse_cons, List.reverse_nil,
        List.nil_append, List.singleton_append] at hrev
      injection hrev with h1 h2
      have hmod : m % 10 = n % 10 :=
        digitChar_inj _ _ (Nat.mod_lt _ (by omega)) (Nat.mod_lt _ (by omega)) h1
      have hdivEq : Nat.toDigits 10 (m / 10) = Nat.toDigits 10 (n / 10) := by
        have := congrArg List.reverse h2
        simpa using this
      have hdiv : m / 10 = n / 10 :=
        ih (m / 10) (Nat.div_lt_self (by omega) (by omega)) _ hdivEq
      omega

theorem natToString_inj (m n : Nat) (h : toString m = toString n) :
    m = n := by
  apply toDigits_inj
  have : (Nat.toDigits 10 m).asString = (Nat.toDigits 10 n).asString := h
  simpa [List.asString] using congrArg String.data this

theorem objHasKey_iff_mem (fields : List (String × Json)) (k : String) :
    objHasKey fields k = true ↔ k ∈ fields.map Prod.fst := by
  unfold objHasKey
  rw [List.any_eq_true]
  constructor
  · rintro ⟨kv, hkv, he⟩
    exact List.mem_map.mpr ⟨kv, hkv, (beq_iff_eq.mp he)⟩
  · intro hk
    obtain ⟨kv, hkv, rfl⟩ := List.mem_map.mp hk
    exact ⟨kv, hkv, beq_iff_eq.mpr rfl⟩

theorem dictInsert_of_not_has (fields : List (String × Json)) (k : String)
    (v : Json) (h : objHasKey fields k = false) :
    dictInsert fields k v = fields ++ [(k, v)] := by
  unfold dictInsert
  simp [h]

theorem mem_dictInsert (fields : List (String × Json)) (k : String)
    (v : Json) (kv : String × Json) (h : kv ∈ dictInsert fields k v) :
    kv ∈ fields ∨ kv = (k, v) := by
  unfold dictInsert at h
  by_cases hk : objHasKey fields k
  · simp only [hk, if_true] at h
    obtain ⟨kv0, hkv0, he⟩ := List.mem_map.mp h
    by_cases hb : kv0.1 == k
    · right
      simp only [hb, if_true] at he
      exact he.symm
    · left
      simp only [hb, Bool.false_eq_true, if_false] at he
      exact he ▸ hkv0
  · simp only [hk, Bool.false_eq_true, if_false] at h
    rcases List.mem_append.mp h with h1 | h1
    · exact Or.inl h1
    · exact Or.inr (List.mem_singleton.mp h1)

theorem keys_dictInsert_of_has (fields : List (String × Json)) (k : String)
    (v : Json) (h : objHasKey fields k = true) :
    (dictInsert fields k v).map Prod.fst = fields.map Prod.fst := by
  unfold dictInsert
  simp only [h, if_true, List.map_map]
  apply List.map_congr_left
  intro kv _
  by_cases hb : kv.1 == k
  · simp [Function.comp, hb, (beq_iff_eq.mp hb).symm]
  · simp [Function.comp, hb]

theorem keys_dictInsert_of_not_has (fields : List (String × Json))
    (k : String) (v : Json) (h : objHasKey fields k = false) :
    (dictInsert fields k v).map Prod.fst = fields.map Prod.fst ++ [k] := by
  rw [dictInsert_of_not_has fields k v h]
  simp

theorem nodupKeys_dictInsert (fields : List (String × Json)) (k : String)
    (v : Json) (h : (fields.map Prod.fst).Nodup) :
    ((dictInsert fields k v).map Prod.fst).Nodup := by
  by_cases hk : objHasKey fields k
  · rw [keys_dictInsert_of_has fields k v hk]
    exact h
  · rw [keys_dictInsert_of_not_has fields k v (by simpa using hk)]
    rw [List.nodup_append]
    refine ⟨h, List.nodup_singleton k, ?_⟩
    intro a ha hb
    rw [List.mem_singleton] at hb
    subst hb
    exact hk ((objHasKey_iff_mem fields a).mpr ha)

theorem foldl_invariant {α β : Type} (P : α → Prop) (f : α → β → α)
    (l : List β) (a : α) (step : ∀ acc x, x ∈ l → P acc → P (f acc x))
    (base : P a) : P (l.foldl f a) := by
  induction l generalizing a with
  | nil => exact base
  | cons x xs ih =>
    exact ih (f a x) (fun acc y hy => step acc y (List.mem_cons_of_mem x hy))
      (step a x (List.mem_cons_self x xs) base)

theorem objHasKey_dictInsert_mono (fields : List (String × Json))
    (k1 k : String) (v : Json) (h : objHasKey fields k1 = true) :
    objHasKey (dictInsert fields k v) k1 = true := by
  rw [objHasKey_iff_mem] at h ⊢
  by_cases hk : objHasKey fields k
  · rw [keys_dictInsert_of_has _ _ _ hk]
    exact h
  · rw [keys_dictInsert_of_not_has _ _ _ (by simpa using hk)]
    exact List.mem_append_left _ h

theorem objHasKey_dictInsert_self (fields : List (String × Json))
    (k : String) (v : Json) : objHasKey (dictInsert fields k v) k = true := by
  by_cases hk : objHasKey fields k
  · rw [objHasKey_iff_mem, keys_dictInsert_of_has _ _ _ hk]
    exact (objHasKey_iff_mem _ _).mp hk
  · rw [objHasKey_iff_mem, keys_dictInsert_of_not_has _ _ _ (by simpa using hk)]
    exact List.mem_append_right _ (List.mem_singleton.mpr rfl)

theorem assocFind_some_hasKey (fields : List (String × Json)) (k : String)
    (v : Json) (h : assocFind fields k = some v) :
    objHasKey fields k = true := by
  unfold assocFind at h
  cases hf : fields.find? (fun kv => kv.1 == k) with
  | none => rw [hf] at h; exact absurd h (by simp)
  | some kv =>
    unfold objHasKey
    rw [List.any_eq_true]
    have hp : (fun kv : String × Json => kv.1 == k) kv = true :=
      @List.find?_some _ (fun kv : String × Json => kv.1 == k) kv fields hf
    exact ⟨kv, List.mem_of_find?_eq_some hf, hp⟩

namespace ProperVideoValidator

theorem mem_foldl_insert_node (items : List Json) :
    ∀ (acc : List (String × Json)) (kv : String × Json),
      kv ∈ items.foldl insert_node_by_id acc →
      kv ∈ acc ∨ (kv.2 ∈ items ∧ ∃ fields, kv.2 = Json.obj fields ∧
        objHasKey fields "id" = true ∧
        kv.1 = pyStr ((assocFind fields "id").getD .null)) := by
  induction items with
  | nil =>
    intro acc kv h
    exact Or.inl h
  | cons x xs ih =>
    intro acc kv h
    rw [List.foldl_cons] at h
    rcases ih _ kv h with h1 | h1
    · unfold insert_node_by_id at h1
      cases x with
      | obj fields =>
        by_cases hid : objHasKey fields "id"
        · simp only [hid, if_true] at h1
          rcases mem_dictInsert _ _ _ _ h1 with h2 | h2
          · exact Or.inl h2
          · refine Or.inr ⟨?_, fields, ?_, hid, ?_⟩ <;> simp [h2]
        · simp only [hid, Bool.false_eq_true, if_false] at h1
          exact Or.inl h1
      | null => exact Or.inl h1
      | bool b => exact Or.inl h1
      | num n => exact Or.inl h1
      | str s => exact Or.inl h1
      | arr elems => exact Or.inl h1
    · exact Or.inr ⟨List.mem_cons_of_mem x h1.1, h1.2⟩

theorem hasKey_foldl_insert_node (items : List Json) :
    ∀ (acc : List (String × Json)) (k : String),
      objHasKey acc k = true →
      objHasKey (items.foldl insert_node_by_id acc) k = true := by
  induction items with
  | nil => intro acc k h; exact h
  | cons x xs ih =>
    intro acc k h
    rw [List.foldl_cons]
    apply ih
    unfold insert_node_by_id
    cases x with
    | obj fields =>
      by_cases hid : objHasKey fields "id"
      · simp only [hid, if_true]
        exact objHasKey_dictInsert_mono _ _ _ _ h
      · simpa only [hid, Bool.false_eq_true, if_false] using h
    | null => exact h
    | bool b => exact h
    | num n => exact h
    | str s => exact h
    | arr elems => exact h

theorem complete_foldl_insert_node (items : List Json) :
    ∀ (acc : List (String × Json)) (node : Json)
      (fields : List (String × Json)),
      node ∈ items → node = Json.obj fields → objHasKey fields "id" = true →
      objHasKey (items.foldl insert_node_by_id acc)
        (pyStr ((assocFind fields "id").getD .null)) = true := by
  induction items with
  | nil =>
    intro acc node fields hmem
    exact absurd hmem (List.not_mem_nil node)
  | cons x xs ih =>
    intro acc node fields hmem hobj hid
    rw [List.foldl_cons]
    rcases List.mem_cons.mp hmem with rfl | h1
    · apply hasKey_foldl_insert_node
      unfold insert_node_by_id
      rw [hobj]
      simp only [hid, if_true]
      exact objHasKey_dictInsert_self _ _ _
    · exact ih _ node fields h1 hobj hid

theorem nodupKeys_insert_node_by_id (acc : List (String × Json)) (x : Json)
    (h : (acc.map Prod.fst).Nodup) :
    ((insert_node_by_id acc x).map Prod.fst).Nodup := by
  unfold insert_node_by_id
  cases x with
  | obj fields =>
    by_cases hid : objHasKey fields "id"
    · simp only [hid, if_true]
      exact nodupKeys_dictInsert _ _ _ h
    · simpa only [hid, Bool.false_eq_true, if_false] using h
  | null => exact h
  | bool b => exact h
  | num n => exact h
  | str s => exact h
  | arr elems => exact h

theorem foldl_insert_index_map (elems : List Json) :
    ∀ (i : Nat) (acc : List (String × Json)),
      (∀ node ∈ elems, node.isObj = true) →
      (∀ k ∈ acc.map Prod.fst, ∃ j, j < i ∧ k = toString j) →
      (List.enumFrom i elems).foldl insert_node_by_index acc
        = acc ++ (List.enumFrom i elems).map (fun p => (toString p.1, p.2)) := by
  induction elems with
  | nil =>
    intro i acc _ _
    simp [List.enumFrom]
  | cons x xs ih =>
    intro i acc hobj hkeys
    have hx : x.isObj = true := hobj x (List.mem_cons_self x xs)
    have hstep : insert_node_by_index acc (i, x) = dictInsert acc (toString i) x := by
      unfold insert_node_by_index
      cases x with
      | obj fields => rfl
      | null => exact absurd hx (by simp [Json.isObj])
      | bool b => exact absurd hx (by simp [Json.isObj])
      | num n => exact absurd hx (by simp [Json.isObj])
      | str s => exact absurd hx (by simp [Json.isObj])
      | arr es => exact absurd hx (by simp [Json.isObj])
    have hfresh : objHasKey acc (toString i) = false := by
      by_contra hc
      have hmem : toString i ∈ acc.map Prod.fst :=
        (objHasKey_iff_mem _ _).mp (by simpa using hc)
      obtain ⟨j, hj, he⟩ := hkeys _ hmem
      exact absurd (natToString_inj i j he) (by omega)
    show (List.enumFrom i (x :: xs)).foldl insert_node_by_index acc = _
    rw [List.enumFrom_cons, List.foldl_cons, hstep,
      dictInsert_of_not_has _ _ _ hfresh,
      ih (i + 1) _ (fun node hn => hobj node (List.mem_cons_of_mem x hn)) ?_]
    · simp [List.enumFrom_cons, List.append_assoc]
    · intro k hk
      rw [List.map_append, List.mem_append] at hk
      rcases hk with hk | hk
      · obtain ⟨j, hj, he⟩ := hkeys _ hk
        exact ⟨j, by omega, he⟩
      · simp only [List.map_cons, List.map_nil, List.mem_singleton] at hk
        exact ⟨i, by omega, hk⟩

theorem foldl_insert_index_enum (elems : List Json)
    (hobj : ∀ node ∈ elems, node.isObj = true) :
    (elems.enum).foldl insert_node_by_index []
      = (elems.enum).map (fun p => (toString p.1, p.2)) := by
  have h := foldl_insert_index_map elems 0 [] hobj (by simp)
  simpa [List.enum] using h

theorem parse_workflow_shapeA (df : List (String × Json)) (ns : List Json)
    (h : assocFind df "nodes" = some (Json.arr ns)) :
    (parse_workflow (.ok (Json.obj df))).nodes
      = ns.foldl insert_node_by_id [] := by
  have hk : objHasKey df "nodes" = true := assocFind_some_hasKey _ _ _ h
  simp [parse_workflow, parse_workflow_body, pyContains, pySubscript, pyIter,
    hk, h, Bind.bind, Except.bind, pure, Except.pure]

theorem parse_workflow_shapeB (ns : List Json)
    (hobj : ∀ node ∈ ns, node.isObj = true) :
    (parse_workflow (.ok (Json.arr ns))).nodes
      = (ns.enum).map (fun p => (toString p.1, p.2)) := by
  have hno : ns.any (fun x =>
      match x with
      | Json.str s => s == "nodes"
      | _ => false) = false := by
    rw [List.any_eq_false]
    intro x hx
    have := hobj x hx
    cases x with
    | obj fields => simp
    | null => simp [Json.isObj] at this
    | bool b => simp [Json.isObj] at this
    | num n => simp [Json.isObj] at this
    | str s => simp [Json.isObj] at this
    | arr es => simp [Json.isObj] at this
  rw [← foldl_insert_index_enum ns hobj]
  simp [parse_workflow, parse_workflow_body, pyContains, hno,
    Bind.bind, Except.bind, pure, Except.pure]

theorem parse_workflow_shapeC (df : List (String × Json))
    (hk : objHasKey df "nodes" = false) :
    (parse_workflow (.ok (Json.obj df))).nodes
      = df.foldl
          (fun acc kv =>
            match kv.2 with
            | .arr (headNode :: restNodes) =>
              match headNode with
              | .obj headFields =>
                if objHasKey headFields "id" then
                  (headNode :: restNodes).foldl insert_node_by_id acc
                else acc
              | _ => acc
            | _ => acc) [] := by
  simp [parse_workflow, parse_workflow_body, pyContains, pyItems, hk,
    Bind.bind, Except.bind, pure, Except.pure]

theorem nodupKeys_insert_node_by_index (acc : List (String × Json))
    (p : Nat × Json) (h : (acc.map Prod.fst).Nodup) :
    ((insert_node_by_index acc p).map Prod.fst).Nodup := by
  unfold insert_node_by_index
  cases p.2 with
  | obj fields => exact nodupKeys_dictInsert _ _ _ h
  | null => exact h
  | bool b => exact h
  | num n => exact h
  | str s => exact h
  | arr elems => exact h

theorem hasKey_some_assocFind (fields : List (String × Json)) (k : String)
    (h : objHasKey fields k = true) : ∃ v, assocFind fields k = some v := by
  unfold objHasKey at h
  unfold assocFind
  cases hf : fields.find? (fun kv => kv.1 == k) with
  | some kv => exact ⟨kv.2, rfl⟩
  | none =>
    rw [List.find?_eq_none] at hf
    rw [List.any_eq_true] at h
    obtain ⟨kv, hkv, he⟩ := h
    exact absurd he (by simpa using hf kv hkv)

/-- The fallback-branch loop body of `parse_workflow` (the third shape),
named for reuse in proofs. -/
theorem nodupKeys_fallback_step (acc : List (String × Json))
    (kv : String × Json) (h : (acc.map Prod.fst).Nodup) :
    (((fun (acc : List (String × Json)) (kv : String × Json) =>
        match kv.2 with
        | Json.arr (headNode :: restNodes) =>
          match headNode with
          | Json.obj headFields =>
            if objHasKey headFields "id" then
              (headNode :: restNodes).foldl insert_node_by_id acc
            else acc
          | _ => acc
        | _ => acc) acc kv).map Prod.fst).Nodup := by
  obtain ⟨k0, v0⟩ := kv
  dsimp only
  cases v0 with
  | arr elems =>
    cases elems with
    | nil => exact h
    | cons headNode restNodes =>
      cases headNode with
      | obj headFields =>
        by_cases hid : objHasKey headFields "id"
        · simp only [hid, if_true]
          exact foldl_invariant (fun a => (a.map Prod.fst).Nodup) _ _ _
            (fun a x _ ha => nodupKeys_insert_node_by_id a x ha) h
        · simpa [hid] using h
      | null => exact h
      | bool b => exact h
      | num n => exact h
      | str s => exact h
      | arr es => exact h
  | null => exact h
  | bool b => exact h
  | num n => exact h
  | str s => exact h
  | obj fields => exact h

theorem nodupKeys_parse_workflow_body (data : Json) (r : ParsedWorkflow)
    (h : parse_workflow_body data = .ok r) :
    (r.nodes.map Prod.fst).Nodup := by
  unfold parse_workflow_body at h
  cases data with
  | null => simp [pyContains, Bind.bind, Except.bind] at h
  | bool b => simp [pyContains, Bind.bind, Except.bind] at h
  | num n => simp [pyContains, Bind.bind, Except.bind] at h
  | str s =>
    by_cases hk : pyIn "nodes" s
    · simp [pyContains, pySubscript, hk, Bind.bind, Except.bind] at h
    · simp [pyContains, pyItems, hk, Bind.bind, Except.bind] at h
  | arr elems =>
    by_cases hk : elems.any (fun x =>
        match x with
        | Json.str s => s == "nodes"
        | _ => false)
    · simp [pyContains, pySubscript, hk, Bind.bind, Except.bind] at h
    · simp only [pyContains, hk, Bool.false_eq_true, if_false, Bind.bind,
        Except.bind, pure, Except.pure] at h
      cases h
      exact foldl_invariant (fun a => (a.map Prod.fst).Nodup)
        insert_node_by_index elems.enum []
        (fun a x _ ha => nodupKeys_insert_node_by_index a x ha) (by simp)
  | obj fields =>
    by_cases hk : objHasKey fields "nodes"
    · obtain ⟨v, hv⟩ := hasKey_some_assocFind fields "nodes" hk
      cases v with
      | arr elems =>
        simp only [pyContains, pySubscript, hk, if_true, hv, pyIter,
          Bind.bind, Except.bind, pure, Except.pure] at h
        cases h
        exact foldl_invariant (fun a => (a.map Prod.fst).Nodup)
          insert_node_by_id elems []
          (fun a x _ ha => nodupKeys_insert_node_by_id a x ha) (by simp)
      | obj fs =>
        simp only [pyContains, pySubscript, hk, if_true, hv, pyIter,
          Bind.bind, Except.bind, pure, Except.pure] at h
        cases h
        exact foldl_invariant (fun a => (a.map Prod.fst).Nodup)
          insert_node_by_id (fs.map (fun kv => Json.str kv.1)) []
          (fun a x _ ha => nodupKeys_insert_node_by_id a x ha) (by simp)
      | str s =>
        simp only [pyContains, pySubscript, hk, if_true, hv, pyIter,
          Bind.bind, Except.bind, pure, Except.pure] at h
        cases h
        exact foldl_invariant (fun a => (a.map Prod.fst).Nodup)
          insert_node_by_id (s.data.map (fun c => Json.str (String.mk [c]))) []
          (fun a x _ ha => nodupKeys_insert_node_by_id a x ha) (by simp)
      | null =>
        simp [pyContains, pySubscript, hk, hv, pyIter, Bind.bind,
          Except.bind] at h
      | bool b =>
        simp [pyContains, pySubscript, hk, hv, pyIter, Bind.bind,
          Except.bind] at h
      | num n =>
        simp [pyContains, pySubscript, hk, hv, pyIter, Bind.bind,
          Except.bind] at h
    · simp only [pyContains, hk, Bool.false_eq_true, if_false, pyItems,
        Bind.bind, Except.bind, pure, Except.pure] at h
      cases h
      refine foldl_invariant (fun a => (a.map Prod.fst).Nodup) _ fields []
        (fun a x _ ha => nodupKeys_fallback_step a x ha) (by simp)

theorem nodupKeys_parse_workflow (input : Except String Json) :
    (((parse_workflow input).nodes).map Prod.fst).Nodup := by
  unfold parse_workflow
  cases input with
  | error e => simp [Except.bind]
  | ok data =>
    cases hb : parse_workflow_body data with
    | error e => simp [Except.bind, hb]
    | ok r =>
      simpa [Except.bind, hb] using nodupKeys_parse_workflow_body data r hb

theorem sound_fallback_fold (df : List (String × Json)) :
    ∀ kv : String × Json,
      kv ∈ df.foldl
        (fun (acc : List (String × Json)) (kv : String × Json) =>
          match kv.2 with
          | Json.arr (headNode :: restNodes) =>
            match headNode with
            | Json.obj headFields =>
              if objHasKey headFields "id" then
                (headNode :: restNodes).foldl insert_node_by_id acc
              else acc
            | _ => acc
          | _ => acc) [] →
      (∃ key elems, (key, Json.arr elems) ∈ df ∧ kv.2 ∈ elems) ∧
      ∃ fields, kv.2 = Json.obj fields ∧ objHasKey fields "id" = true ∧
        kv.1 = pyStr ((assocFind fields "id").getD .null) := by
  refine foldl_invariant
    (fun a : List (String × Json) => ∀ kv : String × Json, kv ∈ a →
      (∃ key elems, (key, Json.arr elems) ∈ df ∧ kv.2 ∈ elems) ∧
      ∃ fields, kv.2 = Json.obj fields ∧ objHasKey fields "id" = true ∧
        kv.1 = pyStr ((assocFind fields "id").getD .null))
    _ df [] ?_ (by simp)
  intro acc x hx hP
  obtain ⟨key, v⟩ := x
  dsimp only
  cases v with
  | arr elems =>
    cases elems with
    | nil => exact hP
    | cons headNode restNodes =>
      cases headNode with
      | obj headFields =>
        by_cases hid : objHasKey headFields "id"
        · simp only [hid, if_true]
          intro kv hkv
          rcases mem_foldl_insert_node _ _ _ hkv with h1 | h1
          · exact hP kv h1
          · exact ⟨⟨key, Json.obj headFields :: restNodes, hx, h1.1⟩, h1.2⟩
        · simpa [hid] using hP
      | null => exact hP
      | bool b => exact hP
      | num n => exact hP
      | str s => exact hP
      | arr es => exact hP
  | null => exact hP
  | bool b => exact hP
  | num n => exact hP
  | str s => exact hP
  | obj fs => exact hP

end ProperVideoValidator

namespace SimpleVideoValidator

theorem parse_workflow_list_shape (ns : List Json) :
    (parse_workflow (.ok (Json.arr ns))).nodes
      = Json.obj ((ns.enum).map (fun p => (toString p.1, p.2))) := by
  simp [parse_workflow, parse_workflow_body, Bind.bind, Except.bind, pure,
    Except.pure]

end SimpleVideoValidator

/-! ## Claim C2 -/

/-- C2 counterexample: on the standard object-with-nodes-list shape,
`SimpleVideoValidator.parse_workflow` returns the nodes list unchanged —
a Python list, not a mapping from node-id string to node record. -/
theorem C2_parse_workflow_counterexample :
    (SimpleVideoValidator.parse_workflow
      (.ok (Json.obj [("nodes", Json.arr [Json.obj [("id", Json.num 1)]])]))).nodes
      = Json.arr [Json.obj [("id", Json.num 1)]] ∧
    ((SimpleVideoValidator.parse_workflow
      (.ok (Json.obj [("nodes",
        Json.arr [Json.obj [("id", Json.num 1)]])]))).nodes).isObj = false := by
  constructor <;> rfl

/-- C2 (amended): `ProperVideoValidator.parse_workflow` normalizes every
supported shape into a genuine node-id-keyed mapping: its keys are
duplicate-free for every input; for the object-with-nodes-list shape every
entry maps the `str(id)` of a dict node of the list to that node, and every
dict node carrying an `id` is present under its key; the top-level list of
node objects is keyed by list index as a string; and for the fallback
object shape every entry comes from a member list of records and is keyed
by the record id.  `SimpleVideoValidator.parse_workflow` index-keys only
the top-level-list shape; its object-with-nodes shape is the
counterexample. -/
theorem C2_parse_workflow_normalization :
    (∀ input : Except String Json,
      (((ProperVideoValidator.parse_workflow input).nodes).map Prod.fst).Nodup) ∧
    (∀ df ns, assocFind df "nodes" = some (Json.arr ns) →
      (∀ kv ∈ (ProperVideoValidator.parse_workflow (.ok (Json.obj df))).nodes,
        kv.2 ∈ ns ∧ ∃ fields, kv.2 = Json.obj fields ∧
          objHasKey fields "id" = true ∧
          kv.1 = pyStr ((assocFind fields "id").getD .null)) ∧
      (∀ node ∈ ns, ∀ fields, node = Json.obj fields →
        objHasKey fields "id" = true →
        objHasKey
          (ProperVideoValidator.parse_workflow (.ok (Json.obj df))).nodes
          (pyStr ((assocFind fields "id").getD .null)) = true)) ∧
    (∀ ns, (∀ node ∈ ns, node.isObj = true) →
      (ProperVideoValidator.parse_workflow (.ok (Json.arr ns))).nodes
        = (ns.enum).map (fun p => (toString p.1, p.2))) ∧
    (∀ df, objHasKey df "nodes" = false →
      ∀ kv ∈ (ProperVideoValidator.parse_workflow (.ok (Json.obj df))).nodes,
        (∃ key elems, (key, Json.arr elems) ∈ df ∧ kv.2 ∈ elems) ∧
        ∃ fields, kv.2 = Json.obj fields ∧ objHasKey fields "id" = true ∧
          kv.1 = pyStr ((assocFind fields "id").getD .null)) ∧
    (∀ ns, (SimpleVideoValidator.parse_workflow (.ok (Json.arr ns))).nodes
      = Json.obj ((ns.enum).map (fun p => (toString p.1, p.2)))) := by
  refine ⟨ProperVideoValidator.nodupKeys_parse_workflow, ?_, ?_, ?_, ?_⟩
  · intro df ns h
    constructor
    · intro kv hkv
      rw [ProperVideoValidator.parse_workflow_shapeA df ns h] at hkv
      rcases ProperVideoValidator.mem_foldl_insert_node ns [] kv hkv with h1 | h1
      · exact absurd h1 (List.not_mem_nil kv)
      · exact h1
    · intro node hnode fields hobj hid
      rw [ProperVideoValidator.parse_workflow_shapeA df ns h]
      exact ProperVideoValidator.complete_foldl_insert_node ns [] node fields
        hnode hobj hid
  · exact ProperVideoValidator.parse_workflow_shapeB
  · intro df hk kv hkv
    rw [ProperVideoValidator.parse_workflow_shapeC df hk] at hkv
    exact ProperVideoValidator.sound_fallback_fold df kv hkv
  · exact SimpleVideoValidator.parse_workflow_list_shape

/-- C2 witness: the amended theorem evaluated on a one-node top-level
list, with the obligations discharged concretely. -/
theorem C2_parse_workflow_normalization_witness :
    (ProperVideoValidator.parse_workflow
      (.ok (Json.arr [Json.obj [("id", Json.num 1)]]))).nodes
      = [("0", Json.obj [("id", Json.num 1)])] := by
  have h := C2_parse_workflow_normalization.2.2.1
    [Json.obj [("id", Json.num 1)]]
    (by
      intro node hn
      rw [List.mem_singleton] at hn
      subst hn
      rfl)
  exact h.trans rfl

/-! ## Claim C7 -/

/-- C7: neither parser propagates a read or JSON-decoding failure: the
proper validator returns the sentinel record with an empty node mapping
and format `error`, the LTX analyzer returns the empty dict, and the
model-reference extractors of both yield no references from those
sentinels. -/
theorem C7_parse_workflow_error_handling :
    (∀ e : String,
      ProperVideoValidator.parse_workflow (.error e)
        = { nodes := [], total_nodes := 0, format := "error" }) ∧
    ProperVideoValidator.extract_model_references [] = .ok [] ∧
    (∀ e : String,
      LTXWorkflowAnalyzer.parse_workflow (.error e) = Json.obj []) ∧
    LTXWorkflowAnalyzer.extract_model_references (Json.obj []) = .ok [] := by
  exact ⟨fun e => rfl, rfl, fun e => rfl, rfl⟩

/-! ## Claim C1 -/

/-- C1 (code bug): for every recognized model type the LTX resolver
raises `NameError` before probing a single path, because the variable `p`
naming the model root is unbound in `resolve_model_path`; evaluated here
on each of the five recognized types over an arbitrary filesystem and an
empty base-path list. -/
theorem C1_resolve_model_path_name_error :
    (LTXWorkflowAnalyzer.resolve_model_path []
      ⟨fun _ => false, fun _ => false, fun _ _ => []⟩
      { model_type := "checkpoint", model_name := "model.safetensors" }
      = .error "NameError: name p is not defined") ∧
    (LTXWorkflowAnalyzer.resolve_model_path []
      ⟨fun _ => false, fun _ => false, fun _ _ => []⟩
      { model_type := "lora", model_name := "m.safetensors" }
      = .error "NameError: name p is not defined") ∧
    (LTXWorkflowAnalyzer.resolve_model_path []
      ⟨fun _ => false, fun _ => false, fun _ _ => []⟩
      { model_type := "vae", model_name := "m.safetensors" }
      = .error "NameError: name p is not defined") ∧
    (LTXWorkflowAnalyzer.resolve_model_path []
      ⟨fun _ => false, fun _ => false, fun _ _ => []⟩
      { model_type := "controlnet", model_name := "m.safetensors" }
      = .error "NameError: name p is not defined") ∧
    (LTXWorkflowAnalyzer.resolve_model_path []
      ⟨fun _ => false, fun _ => false, fun _ _ => []⟩
      { model_type := "clip", model_name := "m.safetensors" }
      = .error "NameError: name p is not defined") := by
  exact ⟨rfl, rfl, rfl, rfl, rfl⟩

/-! ## Claim C9 -/

/-- C9: the exit status of the proper validator is zero exactly when the
aggregated summary reports zero missing models (with the empty summary
reporting zero), and an empty discovery list yields the empty summary and
exit status zero. -/
theorem C9_exit_code_zero_iff_no_missing :
    (∀ (fs : FileSystem) (mps : List String)
      (wfs : List (String × Except String Json)),
      ProperVideoValidator.main_exit_code fs mps wfs = 0 ↔
      (match ProperVideoValidator.validate_all_workflows fs mps wfs with
       | none => 0
       | some s => s.missing_models) = 0) ∧
    (∀ (fs : FileSystem) (mps : List String),
      ProperVideoValidator.validate_all_workflows fs mps [] = none ∧
      ProperVideoValidator.main_exit_code fs mps [] = 0) := by
  constructor
  · intro fs mps wfs
    unfold ProperVideoValidator.main_exit_code
    cases hv : ProperVideoValidator.validate_all_workflows fs mps wfs with
    | none => simp
    | some s => by_cases h : s.missing_models = 0 <;> simp [h]
  · intro fs mps
    exact ⟨rfl, rfl⟩

/-- C9 witness: on an empty workflow list the summary is empty and the
exit code is zero. -/
theorem C9_exit_code_witness :
    ProperVideoValidator.validate_all_workflows
      ⟨fun _ => false, fun _ => false, fun _ _ => []⟩ [] [] = none ∧
    ProperVideoValidator.main_exit_code
      ⟨fun _ => false, fun _ => false, fun _ _ => []⟩ [] [] = 0 :=
  C9_exit_code_zero_iff_no_missing.2
    ⟨fun _ => false, fun _ => false, fun _ _ => []⟩ []

/-! ## Claim C6 -/

/-- C6: both report aggregators compute the totals as pointwise sums of
the per-workflow counts, and the success rate is found/total*100 when the
model total is positive, with zero (proper validator) or the N/A marker
(LTX Markdown report) when it is zero. -/
theorem C6_summary_aggregation :
    (∀ rs : List ProperVideoValidator.WorkflowResult,
      (ProperVideoValidator.summarize rs).total_workflows = rs.length ∧
      (ProperVideoValidator.summarize rs).total_nodes
        = (rs.map (fun r => r.total_nodes)).sum ∧
      (ProperVideoValidator.summarize rs).total_models
        = (rs.map (fun r => r.total_models)).sum ∧
      (ProperVideoValidator.summarize rs).found_models
        = (rs.map (fun r => r.found_models)).sum ∧
      (ProperVideoValidator.summarize rs).missing_models
        = (rs.map (fun r => r.missing_models)).sum ∧
      (0 < (rs.map (fun r => r.total_models)).sum →
        (ProperVideoValidator.summarize rs).success_rate
          = ((rs.map (fun r => r.found_models)).sum : ℚ)
            / ((rs.map (fun r => r.total_models)).sum : ℚ) * 100) ∧
      ((rs.map (fun r => r.total_models)).sum = 0 →
        (ProperVideoValidator.summarize rs).success_rate = 0)) ∧
    (∀ rs : List LTXWorkflowAnalyzer.LTXResultCounts,
      (LTXWorkflowAnalyzer.generate_report_summary rs).total_workflows
        = rs.length ∧
      (LTXWorkflowAnalyzer.generate_report_summary rs).total_models
        = (rs.map (fun r => r.total_models)).sum ∧
      (LTXWorkflowAnalyzer.generate_report_summary rs).found_models
        = (rs.map (fun r => r.found_models)).sum ∧
      (LTXWorkflowAnalyzer.generate_report_summary rs).missing_models
        = (rs.map (fun r => r.missing_models)).sum ∧
      (0 < (rs.map (fun r => r.total_models)).sum →
        (LTXWorkflowAnalyzer.generate_report_summary rs).success_rate
          = some (((rs.map (fun r => r.found_models)).sum : ℚ)
            / ((rs.map (fun r => r.total_models)).sum : ℚ) * 100)) ∧
      ((rs.map (fun r => r.total_models)).sum = 0 →
        (LTXWorkflowAnalyzer.generate_report_summary rs).success_rate
          = none)) := by
  constructor
  · intro rs
    refine ⟨rfl, rfl, rfl, rfl, rfl, ?_, ?_⟩
    · intro h
      show (if 0 < (rs.map (fun r => r.total_models)).sum then _ else _) = _
      rw [if_pos h]
    · intro h
      show (if 0 < (rs.map (fun r => r.total_models)).sum then _ else _) = _
      rw [if_neg (by omega)]
  · intro rs
    refine ⟨rfl, rfl, rfl, rfl, ?_, ?_⟩
    · intro h
      show (if 0 < (rs.map (fun r => r.total_models)).sum then _ else _) = _
      rw [if_pos h]
    · intro h
      show (if 0 < (rs.map (fun r => r.total_models)).sum then _ else _) = _
      rw [if_neg (by omega)]

/-- C6 witness: the aggregation evaluated on a concrete two-workflow
list, with the positivity obligation discharged there. -/
theorem C6_summary_aggregation_witness :
    (ProperVideoValidator.summarize
      [{ workflow_file := "a", total_nodes := 2, total_models := 4,
         found_models := 3, missing_models := 1, models_detail := [] },
       { workflow_file := "b", total_nodes := 1, total_models := 1,
         found_models := 1, missing_models := 0, models_detail := [] }]
      ).success_rate = (4 : ℚ) / 5 * 100 := by
  have h := (C6_summary_aggregation.1
    [{ workflow_file := "a", total_nodes := 2, total_models := 4,
       found_models := 3, missing_models := 1, models_detail := [] },
     { workflow_file := "b", total_nodes := 1, total_models := 1,
       found_models := 1, missing_models := 0, models_detail := [] }]
    ).2.2.2.2.2.1 (by norm_num)
  rw [h]
  norm_num

/-! ## Claim C10 -/

/-- C10: `execute_validation_task` converts every failure mode — missing
worktree, missing validator script, a non-zero subprocess exit status, the
300-second timeout, or any other exception — into a returned result with
`success = False`, all four counts zero, an empty report path and a
non-empty error message, while a zero exit status yields a success result
with no error message. -/
theorem C10_execute_validation_task_failures :
    (∀ (task : VideoWorkflowOrchestrator.ValidationTask) (re : Bool)
      (gm : List String),
      VideoWorkflowOrchestrator.is_zeroed_failure
        (VideoWorkflowOrchestrator.execute_validation_task task
          .missingWorktree re gm)) ∧
    (∀ task re gm,
      VideoWorkflowOrchestrator.is_zeroed_failure
        (VideoWorkflowOrchestrator.execute_validation_task task
          .missingScript re gm)) ∧
    (∀ task re gm,
      VideoWorkflowOrchestrator.is_zeroed_failure
        (VideoWorkflowOrchestrator.execute_validation_task task
          .timedOut re gm)) ∧
    (∀ task msg re gm,
      VideoWorkflowOrchestrator.is_zeroed_failure
        (VideoWorkflowOrchestrator.execute_validation_task task
          (.otherError msg) re gm)) ∧
    (∀ task rc out serr re gm, rc ≠ 0 →
      VideoWorkflowOrchestrator.is_zeroed_failure
        (VideoWorkflowOrchestrator.execute_validation_task task
          (.completed rc out serr) re gm)) ∧
    (∀ task out serr re gm,
      (VideoWorkflowOrchestrator.execute_validation_task task
        (.completed 0 out serr) re gm).success = true ∧
      (VideoWorkflowOrchestrator.execute_validation_task task
        (.completed 0 out serr) re gm).error_message = none) := by
  refine ⟨?_, ?_, ?_, ?_, ?_, ?_⟩
  · intro task re gm
    exact ⟨rfl, rfl, rfl, rfl, rfl, rfl, fun hcon => Option.noConfusion hcon⟩
  · intro task re gm
    exact ⟨rfl, rfl, rfl, rfl, rfl, rfl, fun hcon => Option.noConfusion hcon⟩
  · intro task re gm
    exact ⟨rfl, rfl, rfl, rfl, rfl, rfl, fun hcon => Option.noConfusion hcon⟩
  · intro task msg re gm
    exact ⟨rfl, rfl, rfl, rfl, rfl, rfl, fun hcon => Option.noConfusion hcon⟩
  · intro task rc out serr re gm hrc
    simp only [VideoWorkflowOrchestrator.execute_validation_task,
      bne_iff_ne, ne_eq, hrc, not_false_eq_true, if_true]
    exact ⟨rfl, rfl, rfl, rfl, rfl, rfl, fun hcon => Option.noConfusion hcon⟩
  · intro task out serr re gm
    exact ⟨rfl, rfl⟩

/-- C10 witness: a timed-out task evaluated concretely. -/
theorem C10_execute_validation_task_witness :
    VideoWorkflowOrchestrator.is_zeroed_failure
      (VideoWorkflowOrchestrator.execute_validation_task
        { name := "LTX Video Workflows",
          worktree_path := "/w/ltx-workflows",
          validator_script := "ltx_workflow_validator.py",
          branch_name := "ltx-video-validation",
          port := 8188, priority := "high" }
        .timedOut false []) :=
  C10_execute_validation_task_failures.2.2.1
    { name := "LTX Video Workflows",
      worktree_path := "/w/ltx-workflows",
      validator_script := "ltx_workflow_validator.py",
      branch_name := "ltx-video-validation",
      port := 8188, priority := "high" } false []

theorem except_foldlM_invariant {α β : Type} (P : α → Prop)
    (f : α → β → Except String α) (l : List β) :
    ∀ (a r : α),
      (∀ acc x res, x ∈ l → f acc x = .ok res → P acc → P res) →
      P a → l.foldlM f a = .ok r → P r := by
  induction l with
  | nil =>
    intro a r _ base h
    simp only [List.foldlM_nil, pure, Except.pure, Except.ok.injEq] at h
    exact h ▸ base
  | cons x xs ih =>
    intro a r step base h
    rw [List.foldlM_cons] at h
    cases hf : f a x with
    | error e =>
      rw [hf] at h
      simp [Bind.bind, Except.bind] at h
    | ok a2 =>
      rw [hf] at h
      simp only [Bind.bind, Except.bind] at h
      exact ih a2 r
        (fun acc y res hy => step acc y res (List.mem_cons_of_mem x hy))
        (step a x a2 (List.mem_cons_self x xs) hf base) h

theorem exceptBind_ok {α β : Type} (a : α) (f : α → Except String β) :
    (Except.ok a >>= f : Except String β) = f a := rfl

theorem exceptBind_error {α β : Type} (e : String)
    (f : α → Except String β) :
    ((Except.error e : Except String α) >>= f) = Except.error e := rfl

theorem exceptBind_pure {α β : Type} (a : α) (f : α → Except String β) :
    (pure a >>= f : Except String β) = f a := rfl

namespace ProperVideoValidator

theorem widget_step_good (nid : String) (ntJ : Json)
    (acc : List ModelInfo) (p : Nat × Json) (res : List ModelInfo)
    (hstep : widget_step nid ntJ acc p = .ok res)
    (hP : ∀ m ∈ acc, good_ref m) : ∀ m ∈ res, good_ref m := by
  obtain ⟨i, x⟩ := p
  cases x with
  | str value =>
    simp only [widget_step] at hstep
    by_cases hmf : is_model_filename value
    · rw [if_pos hmf] at hstep
      cases hnt : asStrForLower ntJ with
      | error e =>
        rw [hnt] at hstep
        simp [Bind.bind, Except.bind] at hstep
      | ok nt =>
        rw [hnt] at hstep
        simp only [Bind.bind, Except.bind, pure, Except.pure,
          Except.ok.injEq] at hstep
        subst hstep
        intro m hm
        rcases List.mem_append.mp hm with h1 | h1
        · exact hP m h1
        · rw [List.mem_singleton] at h1
          subst h1
          exact ⟨hmf, rfl, rfl⟩
    · rw [if_neg hmf] at hstep
      simp only [pure, Except.pure, Except.ok.injEq] at hstep
      exact hstep ▸ hP
  | null =>
    simp only [widget_step, pure, Except.pure, Except.ok.injEq] at hstep
    exact hstep ▸ hP
  | bool b =>
    simp only [widget_step, pure, Except.pure, Except.ok.injEq] at hstep
    exact hstep ▸ hP
  | num n =>
    simp only [widget_step, pure, Except.pure, Except.ok.injEq] at hstep
    exact hstep ▸ hP
  | arr es =>
    simp only [widget_step, pure, Except.pure, Except.ok.injEq] at hstep
    exact hstep ▸ hP
  | obj fs =>
    simp only [widget_step, pure, Except.pure, Except.ok.injEq] at hstep
    exact hstep ▸ hP

theorem input_field_step_good (nid : String) (ntJ : Json)
    (acc : List ModelInfo) (kv : String × Json) (res : List ModelInfo)
    (hstep : input_field_step nid ntJ acc kv = .ok res)
    (hP : ∀ m ∈ acc, good_ref m) : ∀ m ∈ res, good_ref m := by
  obtain ⟨k, x⟩ := kv
  cases x with
  | str value =>
    simp only [input_field_step] at hstep
    by_cases hmf : is_model_filename value
    · rw [if_pos hmf] at hstep
      cases hnt : asStrForLower ntJ with
      | error e =>
        rw [hnt] at hstep
        simp [Bind.bind, Except.bind] at hstep
      | ok nt =>
        rw [hnt] at hstep
        simp only [Bind.bind, Except.bind, pure, Except.pure,
          Except.ok.injEq] at hstep
        subst hstep
        intro m hm
        rcases List.mem_append.mp hm with h1 | h1
        · exact hP m h1
        · rw [List.mem_singleton] at h1
          subst h1
          exact ⟨hmf, rfl, rfl⟩
    · rw [if_neg hmf] at hstep
      simp only [pure, Except.pure, Except.ok.injEq] at hstep
      exact hstep ▸ hP
  | null =>
    simp only [input_field_step, pure, Except.pure, Except.ok.injEq]
      at hstep
    exact hstep ▸ hP
  | bool b =>
    simp only [input_field_step, pure, Except.pure, Except.ok.injEq]
      at hstep
    exact hstep ▸ hP
  | num n =>
    simp only [input_field_step, pure, Except.pure, Except.ok.injEq]
      at hstep
    exact hstep ▸ hP
  | arr es =>
    simp only [input_field_step, pure, Except.pure, Except.ok.injEq]
      at hstep
    exact hstep ▸ hP
  | obj fs =>
    simp only [input_field_step, pure, Except.pure, Except.ok.injEq]
      at hstep
    exact hstep ▸ hP

theorem extract_from_widgets_good (nid : String) (ntJ : Json)
    (ws : List Json) (ms : List ModelInfo)
    (h : extract_from_widgets nid ntJ ws = .ok ms) :
    ∀ m ∈ ms, good_ref m :=
  except_foldlM_invariant (fun a => ∀ m ∈ a, good_ref m) _ ws.enum [] ms
    (fun acc p res _ => widget_step_good nid ntJ acc p res) (by simp) h

theorem extract_from_input_record_good (nid : String) (ntJ : Json)
    (fields : List (String × Json)) (ms : List ModelInfo)
    (h : extract_from_input_record nid ntJ fields = .ok ms) :
    ∀ m ∈ ms, good_ref m :=
  except_foldlM_invariant (fun a => ∀ m ∈ a, good_ref m) _ fields [] ms
    (fun acc kv res _ => input_field_step_good nid ntJ acc kv res)
    (by simp) h

theorem input_info_step_good (nid : String) (ntJ : Json)
    (acc : List ModelInfo) (info : Json) (res : List ModelInfo)
    (hstep : input_info_step nid ntJ acc info = .ok res)
    (hP : ∀ m ∈ acc, good_ref m) : ∀ m ∈ res, good_ref m := by
  cases info with
  | obj infoFields =>
    simp only [input_info_step] at hstep
    cases hrec : extract_from_input_record nid ntJ infoFields with
    | error e =>
      rw [hrec] at hstep
      simp [Bind.bind, Except.bind] at hstep
    | ok ms2 =>
      rw [hrec] at hstep
      simp only [Bind.bind, Except.bind, pure, Except.pure,
        Except.ok.injEq] at hstep
      subst hstep
      intro m hm
      rcases List.mem_append.mp hm with h1 | h1
      · exact hP m h1
      · exact extract_from_input_record_good nid ntJ infoFields ms2 hrec
          m h1
  | null =>
    simp only [input_info_step, pure, Except.pure, Except.ok.injEq]
      at hstep
    exact hstep ▸ hP
  | bool b =>
    simp only [input_info_step, pure, Except.pure, Except.ok.injEq]
      at hstep
    exact hstep ▸ hP
  | num n =>
    simp only [input_info_step, pure, Except.pure, Except.ok.injEq]
      at hstep
    exact hstep ▸ hP
  | str s =>
    simp only [input_info_step, pure, Except.pure, Except.ok.injEq]
      at hstep
    exact hstep ▸ hP
  | arr es =>
    simp only [input_info_step, pure, Except.pure, Except.ok.injEq]
      at hstep
    exact hstep ▸ hP

theorem extract_from_node_good (nid : String) (node : Json)
    (ms : List ModelInfo) (h : extract_from_node nid node = .ok ms) :
    ∀ m ∈ ms, good_ref m := by
  cases node with
  | obj fields =>
    unfold extract_from_node at h
    by_cases hw : ((assocFind fields "widgets_values").getD (.arr [])).truthy
    all_goals by_cases hi : ((assocFind fields "inputs").getD (.arr [])).truthy
    all_goals simp only [hw, hi, if_true, Bool.false_eq_true, if_false] at h
    · -- both branches live
      cases hiter : pyIter ((assocFind fields "widgets_values").getD
          (.arr [])) with
      | error e =>
        rw [hiter, exceptBind_error] at h
        exact absurd h (by simp)
      | ok ws =>
        rw [hiter, exceptBind_ok] at h
        cases hwid : extract_from_widgets nid
            ((assocFind fields "type").getD (.str "")) ws with
        | error e =>
          rw [hwid, exceptBind_error] at h
          exact absurd h (by simp)
        | ok fromW =>
          rw [hwid, exceptBind_ok] at h
          cases hiter2 : pyIter ((assocFind fields "inputs").getD
              (.arr [])) with
          | error e =>
            rw [hiter2, exceptBind_error] at h
            exact absurd h (by simp)
          | ok infos =>
            rw [hiter2, exceptBind_ok] at h
            cases hinner : infos.foldlM (input_info_step nid
                ((assocFind fields "type").getD (.str ""))) [] with
            | error e =>
              rw [hinner, exceptBind_error] at h
              exact absurd h (by simp)
            | ok fromI =>
              rw [hinner, exceptBind_ok] at h
              simp only [pure, Except.pure, Except.ok.injEq] at h
              subst h
              intro m hm
              rcases List.mem_append.mp hm with h1 | h1
              · exact extract_from_widgets_good nid _ ws fromW hwid m h1
              · exact except_foldlM_invariant
                  (fun a => ∀ m ∈ a, good_ref m) _ infos [] fromI
                  (fun acc info res _ => input_info_step_good nid _
                    acc info res)
                  (by simp) hinner m h1
    · -- widgets live, inputs dead
      cases hiter : pyIter ((assocFind fields "widgets_values").getD
          (.arr [])) with
      | error e =>
        rw [hiter, exceptBind_error] at h
        exact absurd h (by simp)
      | ok ws =>
        rw [hiter, exceptBind_ok] at h
        cases hwid : extract_from_widgets nid
            ((assocFind fields "type").getD (.str "")) ws with
        | error e =>
          rw [hwid, exceptBind_error] at h
          exact absurd h (by simp)
        | ok fromW =>
          rw [hwid, exceptBind_ok, exceptBind_pure] at h
          simp only [pure, Except.pure, Except.ok.injEq,
            List.append_nil] at h
          subst h
          exact extract_from_widgets_good nid _ ws fromW hwid
    · -- widgets dead, inputs live
      rw [exceptBind_pure] at h
      cases hiter2 : pyIter ((assocFind fields "inputs").getD
          (.arr [])) with
      | error e =>
        rw [hiter2, exceptBind_error] at h
        exact absurd h (by simp)
      | ok infos =>
        rw [hiter2, exceptBind_ok] at h
        cases hinner : infos.foldlM (input_info_step nid
            ((assocFind fields "type").getD (.str ""))) [] with
        | error e =>
          rw [hinner, exceptBind_error] at h
          exact absurd h (by simp)
        | ok fromI =>
          rw [hinner, exceptBind_ok] at h
          simp only [pure, Except.pure, Except.ok.injEq,
            List.nil_append] at h
          subst h
          exact except_foldlM_invariant
            (fun a => ∀ m ∈ a, good_ref m) _ infos [] fromI
            (fun acc info res _ => input_info_step_good nid _ acc info res)
            (by simp) hinner
    · -- both dead
      rw [exceptBind_pure, exceptBind_pure] at h
      simp only [pure, Except.pure, Except.ok.injEq,
        List.append_nil] at h
      subst h
      intro m hm
      exact absurd hm (List.not_mem_nil m)
  | null =>
    simp only [extract_from_node, Except.ok.injEq] at h
    subst h
    intro m hm
    exact absurd hm (List.not_mem_nil m)
  | bool b =>
    simp only [extract_from_node, Except.ok.injEq] at h
    subst h
    intro m hm
    exact absurd hm (List.not_mem_nil m)
  | num n =>
    simp only [extract_from_node, Except.ok.injEq] at h
    subst h
    intro m hm
    exact absurd hm (List.not_mem_nil m)
  | str s =>
    simp only [extract_from_node, Except.ok.injEq] at h
    subst h
    intro m hm
    exact absurd hm (List.not_mem_nil m)
  | arr es =>
    simp only [extract_from_node, Except.ok.injEq] at h
    subst h
    intro m hm
    exact absurd hm (List.not_mem_nil m)

theorem extract_model_references_good (nodes : List (String × Json))
    (ms : List ModelInfo) (h : extract_model_references nodes = .ok ms) :
    ∀ m ∈ ms, good_ref m := by
  refine except_foldlM_invariant (fun a => ∀ m ∈ a, good_ref m) _ nodes
    [] ms ?_ (by simp) h
  intro acc kv res _ hstep hP
  cases hn : extract_from_node kv.1 kv.2 with
  | error e =>
    rw [hn, exceptBind_error] at hstep
    exact absurd hstep (by simp)
  | ok ms2 =>
    rw [hn, exceptBind_ok] at hstep
    simp only [pure, Except.pure, Except.ok.injEq] at hstep
    subst hstep
    intro m hm
    rcases List.mem_append.mp hm with h1 | h1
    · exact hP m h1
    · exact extract_from_node_good kv.1 kv.2 ms2 hn m h1

theorem foldlM_widget_step_eq (nid nt : String) :
    ∀ (l : List (Nat × Json)) (acc : List ModelInfo),
      l.foldlM (widget_step nid (.str nt)) acc
        = .ok (acc ++ l.filterMap (widget_ref? nid nt)) := by
  intro l
  induction l with
  | nil =>
    intro acc
    simp [List.foldlM_nil, pure, Except.pure]
  | cons p l ih =>
    intro acc
    obtain ⟨i, x⟩ := p
    rw [List.foldlM_cons]
    cases x with
    | str value =>
      by_cases hmf : is_model_filename value
      · have hstep : widget_step nid (Json.str nt) acc (i, Json.str value)
            = Except.ok (acc ++
              [{ filename := value
                 node_id := nid
                 node_type := nt
                 source := "widgets_values"
                 index := some i
                 model_type := determine_model_type nt value
                 folder := guess_model_folder
                   (determine_model_type nt value) value }]) := by
          simp only [widget_step, hmf, if_true, asStrForLower,
            exceptBind_ok, pure, Except.pure]
        rw [hstep, exceptBind_ok, ih]
        simp only [List.filterMap_cons, widget_ref?, hmf, if_true,
          List.append_assoc, List.singleton_append]
      · have hstep : widget_step nid (Json.str nt) acc (i, Json.str value)
            = Except.ok acc := by
          simp only [widget_step, hmf, Bool.false_eq_true, if_false, pure,
            Except.pure]
        rw [hstep, exceptBind_ok, ih]
        simp only [List.filterMap_cons, widget_ref?, hmf,
          Bool.false_eq_true, if_false]
    | null =>
      rw [show widget_step nid (Json.str nt) acc (i, Json.null)
        = Except.ok acc from rfl, exceptBind_ok, ih]
      simp only [List.filterMap_cons, widget_ref?]
    | bool b =>
      rw [show widget_step nid (Json.str nt) acc (i, Json.bool b)
        = Except.ok acc from rfl, exceptBind_ok, ih]
      simp only [List.filterMap_cons, widget_ref?]
    | num n =>
      rw [show widget_step nid (Json.str nt) acc (i, Json.num n)
        = Except.ok acc from rfl, exceptBind_ok, ih]
      simp only [List.filterMap_cons, widget_ref?]
    | arr es =>
      rw [show widget_step nid (Json.str nt) acc (i, Json.arr es)
        = Except.ok acc from rfl, exceptBind_ok, ih]
      simp only [List.filterMap_cons, widget_ref?]
    | obj fs =>
      rw [show widget_step nid (Json.str nt) acc (i, Json.obj fs)
        = Except.ok acc from rfl, exceptBind_ok, ih]
      simp only [List.filterMap_cons, widget_ref?]

theorem extract_from_widgets_eq (nid nt : String) (ws : List Json) :
    extract_from_widgets nid (.str nt) ws = .ok (widget_refs nid nt ws) := by
  unfold extract_from_widgets widget_refs
  rw [foldlM_widget_step_eq]
  simp

theorem extract_single_widgets_node (nid nt : String) (ws : List Json)
    (fields : List (String × Json))
    (ht : assocFind fields "type" = some (.str nt))
    (hwv : assocFind fields "widgets_values" = some (.arr ws))
    (hin : assocFind fields "inputs" = none) :
    extract_model_references [(nid, Json.obj fields)]
      = .ok (widget_refs nid nt ws) := by
  have hnode : extract_from_node nid (Json.obj fields)
      = .ok (widget_refs nid nt ws) := by
    simp only [extract_from_node]
    rw [ht, hwv, hin]
    simp only [Option.getD_some, Option.getD_none]
    cases ws with
    | nil =>
      simp [Json.truthy, widget_refs, exceptBind_pure, exceptBind_ok,
        pure, Except.pure]
    | cons w wsrest =>
      have htr : (Json.arr (w :: wsrest)).truthy = true := by
        simp [Json.truthy]
      rw [htr]
      simp only [if_true]
      rw [show pyIter (Json.arr (w :: wsrest)) = .ok (w :: wsrest) from rfl,
        exceptBind_ok, extract_from_widgets_eq, exceptBind_ok]
      have htr2 : (Json.arr []).truthy = false := by simp [Json.truthy]
      rw [htr2]
      simp [exceptBind_pure, exceptBind_ok, pure, Except.pure]
  unfold extract_model_references
  rw [List.foldlM_cons]
  dsimp only
  rw [hnode, exceptBind_ok, exceptBind_pure]
  simp [List.foldlM_nil, pure, Except.pure]

theorem widget_refs_mem_iff (nid nt : String) (ws : List Json) (i : Nat)
    (s : String) :
    (∃ m ∈ widget_refs nid nt ws, m.index = some i ∧ m.filename = s) ↔
      (ws[i]? = some (Json.str s) ∧ is_model_filename s = true) := by
  constructor
  · rintro ⟨m, hm, hidx, hfn⟩
    unfold widget_refs at hm
    obtain ⟨p, hp, hf⟩ := List.mem_filterMap.mp hm
    obtain ⟨j, x⟩ := p
    cases x with
    | str value =>
      simp only [widget_ref?] at hf
      by_cases hmf : is_model_filename value
      · rw [if_pos hmf] at hf
        obtain rfl := Option.some.inj hf
        simp only [Option.some.injEq] at hidx
        subst hidx
        subst hfn
        exact ⟨List.mk_mem_enum_iff_getElem?.mp hp, hmf⟩
      · rw [if_neg hmf] at hf
        exact absurd hf (by simp)
    | null => exact absurd hf (by simp [widget_ref?])
    | bool b => exact absurd hf (by simp [widget_ref?])
    | num n => exact absurd hf (by simp [widget_ref?])
    | arr es => exact absurd hf (by simp [widget_ref?])
    | obj fs => exact absurd hf (by simp [widget_ref?])
  · rintro ⟨hget, hmf⟩
    refine ⟨{ filename := s
              node_id := nid
              node_type := nt
              source := "widgets_values"
              index := some i
              model_type := determine_model_type nt s
              folder := guess_model_folder
                (determine_model_type nt s) s }, ?_, rfl, rfl⟩
    unfold widget_refs
    refine List.mem_filterMap.mpr ⟨(i, Json.str s), ?_, ?_⟩
    · exact List.mk_mem_enum_iff_getElem?.mpr hget
    · simp [widget_ref?, hmf]

theorem foldlM_input_field_step_eq (nid nt : String) :
    ∀ (l : List (String × Json)) (acc : List ModelInfo),
      l.foldlM (input_field_step nid (.str nt)) acc
        = .ok (acc ++ l.filterMap (input_ref? nid nt)) := by
  intro l
  induction l with
  | nil =>
    intro acc
    simp [List.foldlM_nil, pure, Except.pure]
  | cons p l ih =>
    intro acc
    obtain ⟨key, x⟩ := p
    rw [List.foldlM_cons]
    cases x with
    | str value =>
      by_cases hmf : is_model_filename value
      · have hstep : input_field_step nid (Json.str nt) acc
            (key, Json.str value)
            = Except.ok (acc ++
              [{ filename := value
                 node_id := nid
                 node_type := nt
                 source := "inputs"
                 input_key := some key
                 model_type := determine_model_type nt value
                 folder := guess_model_folder
                   (determine_model_type nt value) value }]) := by
          simp only [input_field_step, hmf, if_true, asStrForLower,
            exceptBind_ok, pure, Except.pure]
        rw [hstep, exceptBind_ok, ih]
        simp only [List.filterMap_cons, input_ref?, hmf, if_true,
          List.append_assoc, List.singleton_append]
      · have hstep : input_field_step nid (Json.str nt) acc
            (key, Json.str value)
            = Except.ok acc := by
          simp only [input_field_step, hmf, Bool.false_eq_true, if_false,
            pure, Except.pure]
        rw [hstep, exceptBind_ok, ih]
        simp only [List.filterMap_cons, input_ref?, hmf,
          Bool.false_eq_true, if_false]
    | null =>
      rw [show input_field_step nid (Json.str nt) acc (key, Json.null)
        = Except.ok acc from rfl, exceptBind_ok, ih]
      simp only [List.filterMap_cons, input_ref?]
    | bool b =>
      rw [show input_field_step nid (Json.str nt) acc (key, Json.bool b)
        = Except.ok acc from rfl, exceptBind_ok, ih]
      simp only [List.filterMap_cons, input_ref?]
    | num n =>
      rw [show input_field_step nid (Json.str nt) acc (key, Json.num n)
        = Except.ok acc from rfl, exceptBind_ok, ih]
      simp only [List.filterMap_cons, input_ref?]
    | arr es =>
      rw [show input_field_step nid (Json.str nt) acc (key, Json.arr es)
        = Except.ok acc from rfl, exceptBind_ok, ih]
      simp only [List.filterMap_cons, input_ref?]
    | obj fs =>
      rw [show input_field_step nid (Json.str nt) acc (key, Json.obj fs)
        = Except.ok acc from rfl, exceptBind_ok, ih]
      simp only [List.filterMap_cons, input_ref?]

theorem extract_from_input_record_eq (nid nt : String)
    (fields : List (String × Json)) :
    extract_from_input_record nid (.str nt) fields
      = .ok (input_refs nid nt fields) := by
  unfold extract_from_input_record input_refs
  rw [foldlM_input_field_step_eq]
  simp

theorem foldlM_input_info_step_eq (nid nt : String) :
    ∀ (infos : List Json) (acc : List ModelInfo),
      infos.foldlM (input_info_step nid (.str nt)) acc
        = .ok (acc ++ inputs_refs nid nt infos) := by
  intro infos
  induction infos with
  | nil =>
    intro acc
    simp [List.foldlM_nil, inputs_refs, pure, Except.pure]
  | cons x rest ih =>
    intro acc
    rw [List.foldlM_cons]
    cases x with
    | obj f =>
      have hstep : input_info_step nid (Json.str nt) acc (Json.obj f)
          = Except.ok (acc ++ input_refs nid nt f) := by
        simp only [input_info_step]
        rw [extract_from_input_record_eq, exceptBind_ok]
        rfl
      rw [hstep, exceptBind_ok, ih]
      simp [inputs_refs, input_info_ref, List.flatMap_cons,
        List.append_assoc]
    | null =>
      rw [show input_info_step nid (Json.str nt) acc Json.null
        = Except.ok acc from rfl, exceptBind_ok, ih]
      simp [inputs_refs, input_info_ref, List.flatMap_cons]
    | bool b =>
      rw [show input_info_step nid (Json.str nt) acc (Json.bool b)
        = Except.ok acc from rfl, exceptBind_ok, ih]
      simp [inputs_refs, input_info_ref, List.flatMap_cons]
    | num n =>
      rw [show input_info_step nid (Json.str nt) acc (Json.num n)
        = Except.ok acc from rfl, exceptBind_ok, ih]
      simp [inputs_refs, input_info_ref, List.flatMap_cons]
    | str s =>
      rw [show input_info_step nid (Json.str nt) acc (Json.str s)
        = Except.ok acc from rfl, exceptBind_ok, ih]
      simp [inputs_refs, input_info_ref, List.flatMap_cons]
    | arr es =>
      rw [show input_info_step nid (Json.str nt) acc (Json.arr es)
        = Except.ok acc from rfl, exceptBind_ok, ih]
      simp [inputs_refs, input_info_ref, List.flatMap_cons]

theorem inputs_tail_eq (nid nt : String) (infos : List Json)
    (wr : List ModelInfo) :
    (if (Json.arr infos).truthy then do
        let il ← pyIter (Json.arr infos)
        let y ← il.foldlM (input_info_step nid (Json.str nt)) []
        pure (wr ++ y)
      else do
        let y ← (pure [] : Except String (List ModelInfo))
        pure (wr ++ y))
      = Except.ok (wr ++ inputs_refs nid nt infos) := by
  cases infos with
  | nil =>
    have htr : (Json.arr ([] : List Json)).truthy = false := by
      simp [Json.truthy]
    rw [htr]
    simp only [Bool.false_eq_true, if_false]
    rw [exceptBind_pure]
    simp [inputs_refs, pure, Except.pure]
  | cons x rest =>
    have htr : (Json.arr (x :: rest)).truthy = true := by
      simp [Json.truthy]
    rw [htr]
    simp only [if_true]
    rw [show pyIter (Json.arr (x :: rest)) = .ok (x :: rest) from rfl,
      exceptBind_ok, foldlM_input_info_step_eq, exceptBind_ok]
    simp [pure, Except.pure]

theorem extract_from_node_eq (nid nt : String) (ws infos : List Json)
    (fields : List (String × Json))
    (ht : assocFind fields "type" = some (.str nt))
    (hwv : assocFind fields "widgets_values" = some (.arr ws))
    (hin : assocFind fields "inputs" = some (.arr infos)) :
    extract_from_node nid (Json.obj fields)
      = .ok (widget_refs nid nt ws ++ inputs_refs nid nt infos) := by
  simp only [extract_from_node]
  rw [ht, hwv, hin]
  simp only [Option.getD_some]
  cases ws with
  | nil =>
    have htrw : (Json.arr ([] : List Json)).truthy = false := by
      simp [Json.truthy]
    rw [htrw]
    simp only [Bool.false_eq_true, if_false]
    rw [exceptBind_pure, inputs_tail_eq]
    simp [widget_refs]
  | cons w rest =>
    have htrw : (Json.arr (w :: rest)).truthy = true := by
      simp [Json.truthy]
    rw [htrw]
    simp only [if_true]
    rw [show pyIter (Json.arr (w :: rest)) = .ok (w :: rest) from rfl,
      exceptBind_ok, extract_from_widgets_eq, exceptBind_ok,
      inputs_tail_eq]

theorem widget_refs_input_key_none (nid nt : String) (ws : List Json) :
    ∀ m ∈ widget_refs nid nt ws, m.input_key = none := by
  intro m hm
  obtain ⟨p, hp, hf⟩ := List.mem_filterMap.mp hm
  obtain ⟨i, x⟩ := p
  cases x with
  | str value =>
    simp only [widget_ref?] at hf
    by_cases hmf : is_model_filename value
    · rw [if_pos hmf] at hf
      obtain rfl := Option.some.inj hf
      rfl
    · rw [if_neg hmf] at hf
      exact absurd hf (by simp)
  | null => exact absurd hf (by simp [widget_ref?])
  | bool b => exact absurd hf (by simp [widget_ref?])
  | num n => exact absurd hf (by simp [widget_ref?])
  | arr es => exact absurd hf (by simp [widget_ref?])
  | obj fs => exact absurd hf (by simp [widget_ref?])

theorem inputs_refs_index_none (nid nt : String) (infos : List Json) :
    ∀ m ∈ inputs_refs nid nt infos, m.index = none := by
  intro m hm
  obtain ⟨info, hinfo, hm2⟩ := List.mem_flatMap.mp hm
  cases info with
  | obj f =>
    simp only [input_info_ref, input_refs] at hm2
    obtain ⟨p, hp, hf⟩ := List.mem_filterMap.mp hm2
    obtain ⟨key, x⟩ := p
    cases x with
    | str value =>
      simp only [input_ref?] at hf
      by_cases hmf : is_model_filename value
      · rw [if_pos hmf] at hf
        obtain rfl := Option.some.inj hf
        rfl
      · rw [if_neg hmf] at hf
        exact absurd hf (by simp)
    | null => exact absurd hf (by simp [input_ref?])
    | bool b => exact absurd hf (by simp [input_ref?])
    | num n => exact absurd hf (by simp [input_ref?])
    | arr es => exact absurd hf (by simp [input_ref?])
    | obj fs => exact absurd hf (by simp [input_ref?])
  | null => exact absurd hm2 (by simp [input_info_ref])
  | bool b => exact absurd hm2 (by simp [input_info_ref])
  | num n => exact absurd hm2 (by simp [input_info_ref])
  | str s => exact absurd hm2 (by simp [input_info_ref])
  | arr es => exact absurd hm2 (by simp [input_info_ref])

theorem inputs_refs_mem_iff (nid nt : String) (infos : List Json)
    (k s : String) :
    (∃ m ∈ inputs_refs nid nt infos, m.input_key = some k ∧
        m.filename = s) ↔
      ((∃ f, Json.obj f ∈ infos ∧ (k, Json.str s) ∈ f) ∧
        is_model_filename s = true) := by
  constructor
  · rintro ⟨m, hm, hkey, hfn⟩
    obtain ⟨info, hinfo, hm2⟩ := List.mem_flatMap.mp hm
    cases info with
    | obj f =>
      simp only [input_info_ref, input_refs] at hm2
      obtain ⟨p, hp, hf⟩ := List.mem_filterMap.mp hm2
      obtain ⟨key, x⟩ := p
      cases x with
      | str value =>
        simp only [input_ref?] at hf
        by_cases hmf : is_model_filename value
        · rw [if_pos hmf] at hf
          obtain rfl := Option.some.inj hf
          simp only [Option.some.injEq] at hkey
          subst hkey
          subst hfn
          exact ⟨⟨f, hinfo, hp⟩, hmf⟩
        · rw [if_neg hmf] at hf
          exact absurd hf (by simp)
      | null => exact absurd hf (by simp [input_ref?])
      | bool b => exact absurd hf (by simp [input_ref?])
      | num n => exact absurd hf (by simp [input_ref?])
      | arr es => exact absurd hf (by simp [input_ref?])
      | obj fs => exact absurd hf (by simp [input_ref?])
    | null => exact absurd hm2 (by simp [input_info_ref])
    | bool b => exact absurd hm2 (by simp [input_info_ref])
    | num n => exact absurd hm2 (by simp [input_info_ref])
    | str sv => exact absurd hm2 (by simp [input_info_ref])
    | arr es => exact absurd hm2 (by simp [input_info_ref])
  · rintro ⟨⟨f, hinfo, hmem⟩, hmf⟩
    refine ⟨{ filename := s
              node_id := nid
              node_type := nt
              source := "inputs"
              input_key := some k
              model_type := determine_model_type nt s
              folder := guess_model_folder
                (determine_model_type nt s) s }, ?_, rfl, rfl⟩
    refine List.mem_flatMap.mpr ⟨Json.obj f, hinfo, ?_⟩
    simp only [input_info_ref, input_refs]
    refine List.mem_filterMap.mpr ⟨(k, Json.str s), hmem, ?_⟩
    simp [input_ref?, hmf]

theorem foldlM_extract_cons (kv : String × Json)
    (rest : List (String × Json)) (acc : List ModelInfo) :
    (kv :: rest).foldlM
        (fun acc kv => do
          let ms ← extract_from_node kv.1 kv.2
          pure (acc ++ ms)) acc
      = extract_from_node kv.1 kv.2 >>= fun msn =>
          rest.foldlM
            (fun acc kv => do
              let ms ← extract_from_node kv.1 kv.2
              pure (acc ++ ms)) (acc ++ msn) := by
  rw [List.foldlM_cons]
  show (extract_from_node kv.1 kv.2 >>= fun ms => pure (acc ++ ms)) >>=
      (fun a2 => rest.foldlM
        (fun acc kv => do
          let ms ← extract_from_node kv.1 kv.2
          pure (acc ++ ms)) a2) = _
  cases hn : extract_from_node kv.1 kv.2 with
  | error e =>
    rw [exceptBind_error, exceptBind_error, exceptBind_error]
  | ok msn =>
    rw [exceptBind_ok, exceptBind_ok, exceptBind_pure]

theorem extract_refs_mem (nodes : List (String × Json)) :
    ∀ (acc ms : List ModelInfo),
      nodes.foldlM
          (fun acc kv => do
            let ms ← extract_from_node kv.1 kv.2
            pure (acc ++ ms)) acc = .ok ms →
      (∀ m ∈ acc, m ∈ ms) ∧
      (∀ kv ∈ nodes, ∀ msn,
        extract_from_node kv.1 kv.2 = .ok msn → ∀ m ∈ msn, m ∈ ms) := by
  induction nodes with
  | nil =>
    intro acc ms h
    simp only [List.foldlM_nil, pure, Except.pure, Except.ok.injEq] at h
    subst h
    exact ⟨fun m hm => hm, by simp⟩
  | cons kv rest ih =>
    intro acc ms h
    rw [foldlM_extract_cons] at h
    cases hn : extract_from_node kv.1 kv.2 with
    | error e =>
      rw [hn, exceptBind_error] at h
      exact absurd h (by simp)
    | ok msn0 =>
      rw [hn, exceptBind_ok] at h
      obtain ⟨hacc, hrest⟩ := ih (acc ++ msn0) ms h
      refine ⟨fun m hm => hacc m (List.mem_append_left _ hm), ?_⟩
      intro kv2 hkv2 msn hmsn m hm
      rcases List.mem_cons.mp hkv2 with heq | hmem
      · subst heq
        rw [hn] at hmsn
        simp only [Except.ok.injEq] at hmsn
        subst hmsn
        exact hacc m (List.mem_append_right _ hm)
      · exact hrest kv2 hmem msn hmsn m hm

theorem determine_model_type_mem (nt fn : String) :
    determine_model_type nt fn ∈
      ["ltx_video", "wan2_video", "checkpoint", "lora", "vae", "clip",
       "controlnet", "upscale", "unknown"] := by
  simp only [determine_model_type]
  split_ifs <;> simp

end ProperVideoValidator

namespace ProperVideoValidator

theorem check_model_exists_flag (fs : FileSystem) (mps : List String)
    (mi : ModelInfo) :
    (check_model_exists fs mps mi).1 = true ↔
      (check_model_exists fs mps mi).2 ≠ [] := by
  unfold check_model_exists
  dsimp only
  rw [decide_eq_true_eq]
  exact ⟨fun h => List.ne_nil_of_length_pos h,
    fun h => List.length_pos.mpr h⟩

theorem foldl_model_check_invariant (fs : FileSystem) (mps : List String)
    (models : List ModelInfo) (r : WorkflowResult)
    (base : r.found_models + r.missing_models = r.models_detail.length ∧
      ∀ d ∈ r.models_detail, (d.existsFlag = true ↔ d.found_paths ≠ [])) :
    (models.foldl (model_check_step fs mps) r).found_models
        + (models.foldl (model_check_step fs mps) r).missing_models
      = (models.foldl (model_check_step fs mps) r).models_detail.length ∧
    ∀ d ∈ (models.foldl (model_check_step fs mps) r).models_detail,
      (d.existsFlag = true ↔ d.found_paths ≠ []) := by
  refine foldl_invariant
    (fun a : WorkflowResult =>
      a.found_models + a.missing_models = a.models_detail.length ∧
      ∀ d ∈ a.models_detail, (d.existsFlag = true ↔ d.found_paths ≠ []))
    (model_check_step fs mps) models r ?_ base
  intro acc mi _ ⟨hsum, hiff⟩
  unfold model_check_step
  constructor
  · simp only [List.length_append, List.length_singleton]
    by_cases hp : (check_model_exists fs mps mi).1 <;> simp [hp] <;> omega
  · intro d hd
    rcases List.mem_append.mp hd with h1 | h1
    · exact hiff d h1
    · rw [List.mem_singleton] at h1
      subst h1
      exact check_model_exists_flag fs mps mi

theorem model_check_step_detail_length (fs : FileSystem)
    (mps : List String) (r : WorkflowResult) (mi : ModelInfo) :
    (model_check_step fs mps r mi).models_detail.length
      = r.models_detail.length + 1 := by
  unfold model_check_step
  simp

theorem model_check_step_total (fs : FileSystem) (mps : List String)
    (r : WorkflowResult) (mi : ModelInfo) :
    (model_check_step fs mps r mi).total_models = r.total_models := rfl

theorem foldl_model_check_length (fs : FileSystem) (mps : List String) :
    ∀ (models : List ModelInfo) (r : WorkflowResult),
      (models.foldl (model_check_step fs mps) r).models_detail.length
        = r.models_detail.length + models.length := by
  intro models
  induction models with
  | nil => intro r; simp
  | cons mi ms ih =>
    intro r
    rw [List.foldl_cons, ih, model_check_step_detail_length]
    simp only [List.length_cons]
    omega

theorem foldl_model_check_total (fs : FileSystem) (mps : List String) :
    ∀ (models : List ModelInfo) (r : WorkflowResult),
      (models.foldl (model_check_step fs mps) r).total_models
        = r.total_models := by
  intro models
  induction models with
  | nil => intro r; rfl
  | cons mi ms ih =>
    intro r
    rw [List.foldl_cons, ih, model_check_step_total]

end ProperVideoValidator

/-! ## Claim C8 -/

/-- C8: every result `validate_video_workflow` returns satisfies
found + missing = total = length of the detail list, and each detail
entry carries the existence flag exactly when its found-paths list is
non-empty. -/
theorem C8_workflow_result_invariants (fs : FileSystem)
    (mps : List String) (wf : String) (input : Except String Json)
    (r : ProperVideoValidator.WorkflowResult)
    (h : ProperVideoValidator.validate_video_workflow fs mps wf input
      = .ok r) :
    r.found_models + r.missing_models = r.total_models ∧
    r.total_models = r.models_detail.length ∧
    ∀ d ∈ r.models_detail,
      (d.existsFlag = true ↔ d.found_paths ≠ []) := by
  unfold ProperVideoValidator.validate_video_workflow at h
  by_cases h0 : (ProperVideoValidator.parse_workflow input).total_nodes
      == 0
  · rw [if_pos h0] at h
    obtain rfl := (Except.ok.inj h).symm
    exact ⟨rfl, rfl, by simp⟩
  · rw [if_neg h0] at h
    cases hext : ProperVideoValidator.extract_model_references
        (ProperVideoValidator.parse_workflow input).nodes with
    | error e =>
      rw [hext, ComfyUIInstall.exceptBind_error] at h
      exact absurd h (by simp)
    | ok models =>
      rw [hext, ComfyUIInstall.exceptBind_ok] at h
      simp only [pure, Except.pure, Except.ok.injEq] at h
      subst h
      have hinv := ProperVideoValidator.foldl_model_check_invariant fs mps
        models
        { workflow_file := wf
          total_nodes :=
            (ProperVideoValidator.parse_workflow input).total_nodes
          total_models := models.length
          found_models := 0
          missing_models := 0
          models_detail := [] }
        (by simp)
      have hlen := ProperVideoValidator.foldl_model_check_length fs mps
        models
        { workflow_file := wf
          total_nodes :=
            (ProperVideoValidator.parse_workflow input).total_nodes
          total_models := models.length
          found_models := 0
          missing_models := 0
          models_detail := [] }
      have htot := ProperVideoValidator.foldl_model_check_total fs mps
        models
        { workflow_file := wf
          total_nodes :=
            (ProperVideoValidator.parse_workflow input).total_nodes
          total_models := models.length
          found_models := 0
          missing_models := 0
          models_detail := [] }
      simp only [List.length_nil, Nat.zero_add] at hlen
      refine ⟨?_, ?_, hinv.2⟩
      · rw [hinv.1, hlen, htot]
      · rw [hlen, htot]

/-- C8 witness: the invariants evaluated on a one-model workflow over a
filesystem with no files, the hypothesis discharged by evaluation. -/
theorem C8_workflow_result_invariants_witness :
    ∃ r, ProperVideoValidator.validate_video_workflow
        ⟨fun _ => false, fun _ => false, fun _ _ => []⟩ [] "w"
        (.ok (Json.arr [Json.obj
          [("widgets_values", Json.arr [Json.str "model.safetensors"])]]))
        = .ok r ∧
      (r.found_models + r.missing_models = r.total_models ∧
       r.total_models = r.models_detail.length ∧
       ∀ d ∈ r.models_detail,
         (d.existsFlag = true ↔ d.found_paths ≠ [])) :=
  ⟨_, rfl, C8_workflow_result_invariants
    ⟨fun _ => false, fun _ => false, fun _ _ => []⟩ [] "w"
    (.ok (Json.arr [Json.obj
      [("widgets_values", Json.arr [Json.str "model.safetensors"])]]))
    _ rfl⟩

/-! ## Claim C5 -/

/-- C5: every reference the proper extractor emits is tagged with a
category from the fixed nine-element set and carries the folder guessed
for that category; the category is decided by the first matching
substring test in the order ltx, wan2, checkpoint, lora, vae, clip,
controlnet, upscale, with unknown when none matches; and the folder map
sends each known category to its fixed subfolder, defaulting to
checkpoints. -/
theorem C5_model_type_and_folder :
    (∀ (nodes : List (String × Json))
      (ms : List ProperVideoValidator.ModelInfo),
      ProperVideoValidator.extract_model_references nodes = .ok ms →
      ∀ m ∈ ms,
        m.model_type ∈ ["ltx_video", "wan2_video", "checkpoint", "lora",
          "vae", "clip", "controlnet", "upscale", "unknown"] ∧
        m.folder = ProperVideoValidator.guess_model_folder m.model_type
          m.filename) ∧
    (∀ nt fn, (pyIn "ltx" (pyLower nt) || pyIn "ltx" (pyLower fn)) = true →
      ProperVideoValidator.determine_model_type nt fn = "ltx_video") ∧
    (∀ nt fn,
      (pyIn "ltx" (pyLower nt) || pyIn "ltx" (pyLower fn)) = false →
      (pyIn "wan2" (pyLower fn) || pyIn "wan" (pyLower nt)) = true →
      ProperVideoValidator.determine_model_type nt fn = "wan2_video") ∧
    (∀ nt fn,
      (pyIn "ltx" (pyLower nt) || pyIn "ltx" (pyLower fn)) = false →
      (pyIn "wan2" (pyLower fn) || pyIn "wan" (pyLower nt)) = false →
      pyIn "checkpoint" (pyLower nt) = true →
      ProperVideoValidator.determine_model_type nt fn = "checkpoint") ∧
    (∀ nt fn,
      (pyIn "ltx" (pyLower nt) || pyIn "ltx" (pyLower fn)) = false →
      (pyIn "wan2" (pyLower fn) || pyIn "wan" (pyLower nt)) = false →
      pyIn "checkpoint" (pyLower nt) = false →
      (pyIn "lora" (pyLower nt) || pyIn "lora" (pyLower fn)) = true →
      ProperVideoValidator.determine_model_type nt fn = "lora") ∧
    (∀ nt fn,
      (pyIn "ltx" (pyLower nt) || pyIn "ltx" (pyLower fn)) = false →
      (pyIn "wan2" (pyLower fn) || pyIn "wan" (pyLower nt)) = false →
      pyIn "checkpoint" (pyLower nt) = false →
      (pyIn "lora" (pyLower nt) || pyIn "lora" (pyLower fn)) = false →
      pyIn "vae" (pyLower nt) = true →
      ProperVideoValidator.determine_model_type nt fn = "vae") ∧
    (∀ nt fn,
      (pyIn "ltx" (pyLower nt) || pyIn "ltx" (pyLower fn)) = false →
      (pyIn "wan2" (pyLower fn) || pyIn "wan" (pyLower nt)) = false →
      pyIn "checkpoint" (pyLower nt) = false →
      (pyIn "lora" (pyLower nt) || pyIn "lora" (pyLower fn)) = false →
      pyIn "vae" (pyLower nt) = false →
      pyIn "clip" (pyLower nt) = true →
      ProperVideoValidator.determine_model_type nt fn = "clip") ∧
    (∀ nt fn,
      (pyIn "ltx" (pyLower nt) || pyIn "ltx" (pyLower fn)) = false →
      (pyIn "wan2" (pyLower fn) || pyIn "wan" (pyLower nt)) = false →
      pyIn "checkpoint" (pyLower nt) = false →
      (pyIn "lora" (pyLower nt) || pyIn "lora" (pyLower fn)) = false →
      pyIn "vae" (pyLower nt) = false →
      pyIn "clip" (pyLower nt) = false →
      pyIn "controlnet" (pyLower nt) = true →
      ProperVideoValidator.determine_model_type nt fn = "controlnet") ∧
    (∀ nt fn,
      (pyIn "ltx" (pyLower nt) || pyIn "ltx" (pyLower fn)) = false →
      (pyIn "wan2" (pyLower fn) || pyIn "wan" (pyLower nt)) = false →
      pyIn "checkpoint" (pyLower nt) = false →
      (pyIn "lora" (pyLower nt) || pyIn "lora" (pyLower fn)) = false →
      pyIn "vae" (pyLower nt) = false →
      pyIn "clip" (pyLower nt) = false →
      pyIn "controlnet" (pyLower nt) = false →
      (pyIn "upscale" (pyLower nt) || pyIn "esrgan" (pyLower fn)) = true →
      ProperVideoValidator.determine_model_type nt fn = "upscale") ∧
    (∀ nt fn,
      (pyIn "ltx" (pyLower nt) || pyIn "ltx" (pyLower fn)) = false →
      (pyIn "wan2" (pyLower fn) || pyIn "wan" (pyLower nt)) = false →
      pyIn "checkpoint" (pyLower nt) = false →
      (pyIn "lora" (pyLower nt) || pyIn "lora" (pyLower fn)) = false →
      pyIn "vae" (pyLower nt) = false →
      pyIn "clip" (pyLower nt) = false →
      pyIn "controlnet" (pyLower nt) = false →
      (pyIn "upscale" (pyLower nt) || pyIn "esrgan" (pyLower fn)) = false →
      ProperVideoValidator.determine_model_type nt fn = "unknown") ∧
    (∀ fn, ProperVideoValidator.guess_model_folder "ltx_video" fn
        = "checkpoints" ∧
      ProperVideoValidator.guess_model_folder "wan2_video" fn
        = "checkpoints" ∧
      ProperVideoValidator.guess_model_folder "checkpoint" fn
        = "checkpoints" ∧
      ProperVideoValidator.guess_model_folder "lora" fn = "loras" ∧
      ProperVideoValidator.guess_model_folder "vae" fn = "vae" ∧
      ProperVideoValidator.guess_model_folder "clip" fn = "clip" ∧
      ProperVideoValidator.guess_model_folder "controlnet" fn
        = "controlnet" ∧
      ProperVideoValidator.guess_model_folder "upscale" fn
        = "upscale_models") ∧
    (∀ mt fn, mt ∉ (ProperVideoValidator.folder_map.map Prod.fst) →
      ProperVideoValidator.guess_model_folder mt fn = "checkpoints") := by
  refine ⟨?_, ?_, ?_, ?_, ?_, ?_, ?_, ?_, ?_, ?_, ?_, ?_⟩
  · intro nodes ms h m hm
    obtain ⟨-, hmt, hfold⟩ :=
      ProperVideoValidator.extract_model_references_good nodes ms h m hm
    exact ⟨hmt ▸ ProperVideoValidator.determine_model_type_mem m.node_type
      m.filename, hfold⟩
  · intro nt fn h1
    simp [ProperVideoValidator.determine_model_type, h1]
  · intro nt fn h1 h2
    simp [ProperVideoValidator.determine_model_type, h1, h2]
  · intro nt fn h1 h2 h3
    simp [ProperVideoValidator.determine_model_type, h1, h2, h3]
  · intro nt fn h1 h2 h3 h4
    simp [ProperVideoValidator.determine_model_type, h1, h2, h3, h4]
  · intro nt fn h1 h2 h3 h4 h5
    simp [ProperVideoValidator.determine_model_type, h1, h2, h3, h4, h5]
  · intro nt fn h1 h2 h3 h4 h5 h6
    simp [ProperVideoValidator.determine_model_type, h1, h2, h3, h4, h5,
      h6]
  · intro nt fn h1 h2 h3 h4 h5 h6 h7
    simp [ProperVideoValidator.determine_model_type, h1, h2, h3, h4, h5,
      h6, h7]
  · intro nt fn h1 h2 h3 h4 h5 h6 h7 h8
    simp [ProperVideoValidator.determine_model_type, h1, h2, h3, h4, h5,
      h6, h7, h8]
  · intro nt fn h1 h2 h3 h4 h5 h6 h7 h8
    simp [ProperVideoValidator.determine_model_type, h1, h2, h3, h4, h5,
      h6, h7, h8]
  · intro fn
    exact ⟨rfl, rfl, rfl, rfl, rfl, rfl, rfl, rfl⟩
  · intro mt fn h
    unfold ProperVideoValidator.guess_model_folder
    cases hf : ProperVideoValidator.folder_map.find?
        (fun kv => kv.1 == mt) with
    | none => rfl
    | some kv =>
      have hp : (fun kv : String × String => kv.1 == mt) kv = true :=
        @List.find?_some _ (fun kv : String × String => kv.1 == mt) kv
          ProperVideoValidator.folder_map hf
      have hmem : kv ∈ ProperVideoValidator.folder_map :=
        List.mem_of_find?_eq_some hf
      exact absurd (List.mem_map.mpr ⟨kv, hmem, beq_iff_eq.mp hp⟩) h

/-- C5 witness: a checkpoint-loader node name takes the checkpoint
branch, with each earlier test discharged concretely, and its folder
guess is the checkpoints subfolder. -/
theorem C5_model_type_and_folder_witness :
    ProperVideoValidator.determine_model_type "CheckpointLoaderSimple"
      "model.safetensors" = "checkpoint" ∧
    ProperVideoValidator.guess_model_folder "checkpoint"
      "model.safetensors" = "checkpoints" :=
  ⟨C5_model_type_and_folder.2.2.2.1 "CheckpointLoaderSimple"
      "model.safetensors" (by rfl) (by rfl) (by rfl),
    (C5_model_type_and_folder.2.2.2.2.2.2.2.2.2.2.1
      "model.safetensors").2.2.1⟩

/-! ## Claim C4 -/

/-- C4 counterexample: the simple validator does not extract a string
input ending in `.onnx`, although `.onnx` is one of the recognized
extensions (it is recognized by the proper validator). -/
theorem C4_extension_counterexample :
    SimpleVideoValidator.extract_model_references
      (Json.obj [("1", Json.obj [("inputs",
        Json.obj [("x", Json.str "model.onnx")])])]) = .ok [] ∧
    ProperVideoValidator.is_model_filename "model.onnx" = true := by
  constructor <;> rfl

/-- C4 (amended): the proper validator extracts a string value exactly
when it ends, case-insensitively, with one of its six recognized
extensions (including `.onnx`): its predicate is that extension test;
for a node carrying a string type, a widgets list and an inputs list,
the node emits a widgets reference at index i with filename s exactly
when widget entry i is the string s passing the test, and a reference
with input key k and filename s exactly when some dict entry of the
inputs list maps k to the string s passing the test; every reference a
node emits appears in the workflow-level extraction, and every emitted
reference passes the test.  The simple validator recognizes only five
extensions for string inputs: `.onnx` is missing from its list. -/
theorem C4_model_extension_filter :
    (∀ s, ProperVideoValidator.is_model_filename s = true ↔
      ∃ ext ∈ ProperVideoValidator.model_extensions,
        pyEndsWith (pyLower s) ext = true) ∧
    (∀ (nid nt : String) (ws infos : List Json)
        (fields : List (String × Json)),
      assocFind fields "type" = some (.str nt) →
      assocFind fields "widgets_values" = some (.arr ws) →
      assocFind fields "inputs" = some (.arr infos) →
      ∃ ms, ProperVideoValidator.extract_from_node nid (Json.obj fields)
          = .ok ms ∧
        (∀ i s, (∃ m ∈ ms, m.index = some i ∧ m.filename = s) ↔
          (ws[i]? = some (Json.str s) ∧
            ProperVideoValidator.is_model_filename s = true)) ∧
        (∀ k s, (∃ m ∈ ms, m.input_key = some k ∧ m.filename = s) ↔
          ((∃ f, Json.obj f ∈ infos ∧ (k, Json.str s) ∈ f) ∧
            ProperVideoValidator.is_model_filename s = true))) ∧
    (∀ (nodes : List (String × Json))
        (ms : List ProperVideoValidator.ModelInfo),
      ProperVideoValidator.extract_model_references nodes = .ok ms →
      (∀ m ∈ ms, ProperVideoValidator.is_model_filename m.filename
          = true) ∧
      (∀ kv ∈ nodes, ∀ msn,
        ProperVideoValidator.extract_from_node kv.1 kv.2 = .ok msn →
        ∀ m ∈ msn, m ∈ ms)) ∧
    (∀ s, SimpleVideoValidator.is_simple_model_str s = true ↔
      (pyIn "." s = true ∧
        ∃ ext ∈ SimpleVideoValidator.simple_str_extensions,
          pyEndsWith (pyLower s) ext = true)) ∧
    (".onnx" ∈ ProperVideoValidator.model_extensions ∧
      ".onnx" ∉ SimpleVideoValidator.simple_str_extensions) := by
  refine ⟨?_, ?_, ?_, ?_, by decide⟩
  · intro s
    unfold ProperVideoValidator.is_model_filename
    rw [List.any_eq_true]
  · intro nid nt ws infos fields ht hwv hin
    refine ⟨ProperVideoValidator.widget_refs nid nt ws ++
        ProperVideoValidator.inputs_refs nid nt infos,
      ProperVideoValidator.extract_from_node_eq nid nt ws infos fields
        ht hwv hin, ?_, ?_⟩
    · intro i s
      constructor
      · rintro ⟨m, hm, hidx, hfn⟩
        rcases List.mem_append.mp hm with h1 | h1
        · exact (ProperVideoValidator.widget_refs_mem_iff nid nt ws i
            s).mp ⟨m, h1, hidx, hfn⟩
        · rw [ProperVideoValidator.inputs_refs_index_none nid nt infos
            m h1] at hidx
          exact absurd hidx (by simp)
      · intro hr
        obtain ⟨m, hm, hrest⟩ :=
          (ProperVideoValidator.widget_refs_mem_iff nid nt ws i s).mpr hr
        exact ⟨m, List.mem_append.mpr (Or.inl hm), hrest⟩
    · intro k s
      constructor
      · rintro ⟨m, hm, hkey, hfn⟩
        rcases List.mem_append.mp hm with h1 | h1
        · rw [ProperVideoValidator.widget_refs_input_key_none nid nt ws
            m h1] at hkey
          exact absurd hkey (by simp)
        · exact (ProperVideoValidator.inputs_refs_mem_iff nid nt infos k
            s).mp ⟨m, h1, hkey, hfn⟩
      · intro hr
        obtain ⟨m, hm, hrest⟩ :=
          (ProperVideoValidator.inputs_refs_mem_iff nid nt infos k
            s).mpr hr
        exact ⟨m, List.mem_append.mpr (Or.inr hm), hrest⟩
  · intro nodes ms h
    refine ⟨fun m hm =>
      (ProperVideoValidator.extract_model_references_good nodes ms h
        m hm).1, ?_⟩
    have h2 := h
    unfold ProperVideoValidator.extract_model_references at h2
    exact (ProperVideoValidator.extract_refs_mem nodes [] ms h2).2
  · intro s
    unfold SimpleVideoValidator.is_simple_model_str
    rw [Bool.and_eq_true, List.any_eq_true]

/-- C4 witness: the per-node characterization evaluated on a node with a
widgets model string and a string-valued inputs entry, hypotheses
discharged concretely. -/
theorem C4_model_extension_filter_witness :
    ∃ ms, ProperVideoValidator.extract_from_node "1"
        (Json.obj [("type", Json.str "CheckpointLoaderSimple"),
          ("widgets_values", Json.arr [Json.str "model.safetensors"]),
          ("inputs", Json.arr [Json.obj
            [("vae_name", Json.str "vae.pt")]])])
        = .ok ms ∧
      (∀ i s, (∃ m ∈ ms, m.index = some i ∧ m.filename = s) ↔
        (([Json.str "model.safetensors"] : List Json)[i]?
            = some (Json.str s) ∧
          ProperVideoValidator.is_model_filename s = true)) ∧
      (∀ k s, (∃ m ∈ ms, m.input_key = some k ∧ m.filename = s) ↔
        ((∃ f, Json.obj f ∈ ([Json.obj [("vae_name",
              Json.str "vae.pt")]] : List Json) ∧ (k, Json.str s) ∈ f) ∧
          ProperVideoValidator.is_model_filename s = true)) :=
  C4_model_extension_filter.2.1 "1" "CheckpointLoaderSimple"
    [Json.str "model.safetensors"]
    [Json.obj [("vae_name", Json.str "vae.pt")]]
    [("type", Json.str "CheckpointLoaderSimple"),
     ("widgets_values", Json.arr [Json.str "model.safetensors"]),
     ("inputs", Json.arr [Json.obj [("vae_name", Json.str "vae.pt")]])]
    rfl rfl rfl

/-! ## Claim C3 -/

namespace VideoWorkflowOrchestrator

theorem foldl_scrape (g : OrchMetrics → Int) (m : String)
    (hsel : ∀ a l, g (scrape_step a l)
      = match (if marker_of l = some m then pyInt (lastColonField l)
               else none) with
        | some n => n
        | none => g a) :
    ∀ (ls : List String) (a : OrchMetrics),
      g (ls.foldl scrape_step a)
        = (ls.filterMap (fun l =>
            if marker_of l = some m then pyInt (lastColonField l)
            else none)).getLastD (g a) := by
  intro ls
  induction ls with
  | nil => intro a; rfl
  | cons l ls ih =>
    intro a
    rw [List.foldl_cons, List.filterMap_cons, ih (scrape_step a l)]
    cases hf : (if marker_of l = some m then pyInt (lastColonField l)
        else none) with
    | none => rw [hsel a l, hf]
    | some n =>
      rw [List.getLastD_cons, hsel a l, hf]

theorem scrape_step_sel_workflows (a : OrchMetrics) (l : String) :
    (scrape_step a l).total_workflows
      = match (if marker_of l = some "Workflows analyzed:"
               then pyInt (lastColonField l) else none) with
        | some n => n
        | none => a.total_workflows := by
  unfold scrape_step marker_of markers
  by_cases h1 : pyIn "Workflows analyzed:" l <;>
    by_cases h2 : pyIn "Total models needed:" l <;>
    by_cases h3 : pyIn "Models found:" l <;>
    by_cases h4 : pyIn "Models missing:" l <;>
    simp only [h1, h2, h3, h4, List.find?, if_true, if_false,
      Bool.false_eq_true] <;>
    (cases hp : pyInt (lastColonField l) <;> simp [hp])

theorem scrape_step_sel_total (a : OrchMetrics) (l : String) :
    (scrape_step a l).total_models
      = match (if marker_of l = some "Total models needed:"
               then pyInt (lastColonField l) else none) with
        | some n => n
        | none => a.total_models := by
  unfold scrape_step marker_of markers
  by_cases h1 : pyIn "Workflows analyzed:" l <;>
    by_cases h2 : pyIn "Total models needed:" l <;>
    by_cases h3 : pyIn "Models found:" l <;>
    by_cases h4 : pyIn "Models missing:" l <;>
    simp only [h1, h2, h3, h4, List.find?, if_true, if_false,
      Bool.false_eq_true] <;>
    (cases hp : pyInt (lastColonField l) <;> simp [hp])

theorem scrape_step_sel_found (a : OrchMetrics) (l : String) :
    (scrape_step a l).found_models
      = match (if marker_of l = some "Models found:"
               then pyInt (lastColonField l) else none) with
        | some n => n
        | none => a.found_models := by
  unfold scrape_step marker_of markers
  by_cases h1 : pyIn "Workflows analyzed:" l <;>
    by_cases h2 : pyIn "Total models needed:" l <;>
    by_cases h3 : pyIn "Models found:" l <;>
    by_cases h4 : pyIn "Models missing:" l <;>
    simp only [h1, h2, h3, h4, List.find?, if_true, if_false,
      Bool.false_eq_true] <;>
    (cases hp : pyInt (lastColonField l) <;> simp [hp])

theorem scrape_step_sel_missing (a : OrchMetrics) (l : String) :
    (scrape_step a l).missing_models
      = match (if marker_of l = some "Models missing:"
               then pyInt (lastColonField l) else none) with
        | some n => n
        | none => a.missing_models := by
  unfold scrape_step marker_of markers
  by_cases h1 : pyIn "Workflows analyzed:" l <;>
    by_cases h2 : pyIn "Total models needed:" l <;>
    by_cases h3 : pyIn "Models found:" l <;>
    by_cases h4 : pyIn "Models missing:" l <;>
    simp only [h1, h2, h3, h4, List.find?, if_true, if_false,
      Bool.false_eq_true] <;>
    (cases hp : pyInt (lastColonField l) <;> simp [hp])

end VideoWorkflowOrchestrator

/-- C3 counterexample: an output whose first line is the summary header
contains the header and a later parsable `Models found:` line, yet the
parser returns zero for every count, because `if not summary_start`
confuses index zero with a missing header. -/
theorem C3_parse_validator_output_counterexample :
    ((VideoWorkflowOrchestrator.splitLines "WORKFLOW VALIDATION SUMMARY\nModels found: 5").any
      (fun l => pyIn "WORKFLOW VALIDATION SUMMARY" l) = true) ∧
    (VideoWorkflowOrchestrator.pyInt
      (VideoWorkflowOrchestrator.lastColonField "Models found: 5")
      = some 5) ∧
    ((VideoWorkflowOrchestrator.parse_validator_output
        "WORKFLOW VALIDATION SUMMARY\nModels found: 5" "/w" false []
      ).found_models = 0) := by
  refine ⟨?_, ?_, ?_⟩ <;> rfl

/-- C3 (amended): the output scraper returns the defaults when no line
contains the summary header or when the first line containing it is the
very first line of the output; when the header first occurs at a positive
index, each returned count is the last substring-matching win over the
lines from the header onward: the integer parsed after the last colon of
the last line whose first matching marker (in the order workflows
analyzed, total models needed, models found, models missing) is the
corresponding one, and zero when no such line parses. -/
theorem C3_parse_validator_output_scrape :
    ∀ (output wt : String) (re : Bool) (gm : List String),
      (((VideoWorkflowOrchestrator.splitLines output).findIdx?
          (fun l => pyIn "WORKFLOW VALIDATION SUMMARY" l)) = none →
        VideoWorkflowOrchestrator.parse_validator_output output wt re gm
          = VideoWorkflowOrchestrator.default_metrics wt) ∧
      (((VideoWorkflowOrchestrator.splitLines output).findIdx?
          (fun l => pyIn "WORKFLOW VALIDATION SUMMARY" l)) = some 0 →
        VideoWorkflowOrchestrator.parse_validator_output output wt re gm
          = VideoWorkflowOrchestrator.default_metrics wt) ∧
      (∀ j, ((VideoWorkflowOrchestrator.splitLines output).findIdx?
          (fun l => pyIn "WORKFLOW VALIDATION SUMMARY" l)) = some (j + 1) →
        ((VideoWorkflowOrchestrator.parse_validator_output output wt re gm
          ).total_workflows
            = VideoWorkflowOrchestrator.scraped_count
              ((VideoWorkflowOrchestrator.splitLines output).drop (j + 1)) "Workflows analyzed:") ∧
        ((VideoWorkflowOrchestrator.parse_validator_output output wt re gm
          ).total_models
            = VideoWorkflowOrchestrator.scraped_count
              ((VideoWorkflowOrchestrator.splitLines output).drop (j + 1)) "Total models needed:") ∧
        ((VideoWorkflowOrchestrator.parse_validator_output output wt re gm
          ).found_models
            = VideoWorkflowOrchestrator.scraped_count
              ((VideoWorkflowOrchestrator.splitLines output).drop (j + 1)) "Models found:") ∧
        ((VideoWorkflowOrchestrator.parse_validator_output output wt re gm
          ).missing_models
            = VideoWorkflowOrchestrator.scraped_count
              ((VideoWorkflowOrchestrator.splitLines output).drop (j + 1)) "Models missing:")) := by
  intro output wt re gm
  refine ⟨?_, ?_, ?_⟩
  · intro h
    simp only [VideoWorkflowOrchestrator.parse_validator_output, h]
  · intro h
    simp only [VideoWorkflowOrchestrator.parse_validator_output, h]
  · intro j hj
    simp only [VideoWorkflowOrchestrator.parse_validator_output, hj]
    refine ⟨?_, ?_, ?_, ?_⟩
    · exact VideoWorkflowOrchestrator.foldl_scrape _ _
        VideoWorkflowOrchestrator.scrape_step_sel_workflows _ _
    · exact VideoWorkflowOrchestrator.foldl_scrape _ _
        VideoWorkflowOrchestrator.scrape_step_sel_total _ _
    · exact VideoWorkflowOrchestrator.foldl_scrape _ _
        VideoWorkflowOrchestrator.scrape_step_sel_found _ _
    · exact VideoWorkflowOrchestrator.foldl_scrape _ _
        VideoWorkflowOrchestrator.scrape_step_sel_missing _ _

/-- C3 witness: scraping a concrete output whose header sits on the
second line recovers the parsed count. -/
theorem C3_parse_validator_output_witness :
    (VideoWorkflowOrchestrator.parse_validator_output
      "start\nWORKFLOW VALIDATION SUMMARY\nModels found: 7" "/w" false []
    ).found_models = 7 := by
  have h := (C3_parse_validator_output_scrape
    "start\nWORKFLOW VALIDATION SUMMARY\nModels found: 7" "/w" false []
    ).2.2 0 (by rfl)
  exact h.2.2.1.trans (by rfl)

end ComfyUIInstall
